import Mathlib

set_option maxRecDepth 4000

/-!
# Verification of the confluence-dumper crawl-and-rehost engine

A shallow embedding of `src/confluence_dumper.py` (with configuration values
from `src/settings.sample.py`).  Pure Python functions become Lean functions;
the stateful parts (filename scopes, the sqlite page cache, the tiny-URL
cache, the output filesystem) are threaded as explicit state records; remote
HTTP behaviour is an oracle parameter; Python exceptions become `Option`s or
explicit flags.  Functions of the repository's `utils` module (not part of
the sources available here) are modelled from the specification and marked
`Modelled from the spec:` in their doc comments.

All definitions are structural (fuel-based where Python recursion or
scanning is unbounded), so every concrete run evaluates by `rfl`/`decide`.
-/
/-! ## Association lists (Python dicts keyed by strings / ints) -/
/-- Python `d.get(k)` / `k in d` on a dict modelled as an association list. -/
def findVal {κ α : Type} [DecidableEq κ] : List (κ × α) → κ → Option α
  | [], _ => none
  | (k', v) :: rest, k => if k' = k then some v else findVal rest k

/-- Python `d[k] = v`: overwrite the binding if present, else append it. -/
def setVal {κ α : Type} [DecidableEq κ] : List (κ × α) → κ → α → List (κ × α)
  | [], k, v => [(k, v)]
  | (k', v') :: rest, k, v =>
      if k' = k then (k, v) :: rest else (k', v') :: setVal rest k v

/-! ## Character-list string utilities

Python string operations, modelled over `List Char` (Lean `String.data`).
Everything is structurally recursive; scanning loops take an explicit fuel
argument that is always instantiated so that it cannot run out. -/
/-- `needle` is a prefix of `hay` (Python slice comparison). -/
def listIsPrefixOf : List Char → List Char → Bool
  | [], _ => true
  | _ :: _, [] => false
  | a :: as, b :: bs => a = b && listIsPrefixOf as bs

/-- Python `needle in hay` (substring containment). -/
def listContainsSub : List Char → List Char → Bool
  | [], needle => needle.isEmpty
  | hay@(_ :: t), needle => listIsPrefixOf needle hay || listContainsSub t needle

/-- Python `sub in s` on strings. -/
def strContains (s sub : String) : Bool := listContainsSub s.data sub.data

/-- Python `s.split(sep)` for a single-character separator. -/
def splitCharAux (sep : Char) : List Char → List Char → List (List Char)
  | [], cur => [cur.reverse]
  | c :: rest, cur =>
      if c = sep then cur.reverse :: splitCharAux sep rest []
      else splitCharAux sep rest (c :: cur)

def pySplitChar (sep : Char) (l : List Char) : List (List Char) :=
  splitCharAux sep l []

/-- Python `s.split(sep)[-1]` for a single-character separator. -/
def lastSegment (sep : Char) (l : List Char) : List Char :=
  (pySplitChar sep l).getLastD []

/-- Python `s.split(sep)` for a multi-character separator; `fuel` bounds the
scan and is always called with `l.length + 1`, which cannot be exhausted. -/
def splitOnAux (sep : List Char) : Nat → List Char → List Char → List (List Char)
  | 0, l, cur => [cur.reverse ++ l]
  | fuel + 1, l, cur =>
      match l with
      | [] => [cur.reverse]
      | c :: rest =>
          if listIsPrefixOf sep l then
            cur.reverse :: splitOnAux sep fuel (l.drop sep.length) []
          else
            splitOnAux sep fuel rest (c :: cur)

/-- Python `s.split(sep)` (nonempty separator; empty separator raises there,
here we return the whole string unsplit). -/
def pySplitOn (l sep : List Char) : List (List Char) :=
  if sep.isEmpty then [l] else splitOnAux sep (l.length + 1) l []

/-- Everything after the first occurrence of `pat` (helper for `urlparse`
netloc stripping); returns `none` when `pat` does not occur. -/
def afterFirstAux (pat : List Char) : Nat → List Char → Option (List Char)
  | 0, _ => none
  | _ + 1, [] => if pat.isEmpty then some [] else none
  | fuel + 1, l@(_ :: rest) =>
      if listIsPrefixOf pat l then some (l.drop pat.length)
      else afterFirstAux pat fuel rest

def afterFirst (pat l : List Char) : Option (List Char) :=
  afterFirstAux pat (l.length + 1) l

/-- Python `s.replace(pat, rep, 1)`: replace the first occurrence only. -/
def replaceFirstAux (pat rep : List Char) : Nat → List Char → List Char
  | 0, l => l
  | _ + 1, [] => []
  | fuel + 1, l@(c :: rest) =>
      if listIsPrefixOf pat l then rep ++ l.drop pat.length
      else c :: replaceFirstAux pat rep fuel rest

def pyReplaceFirst (l pat rep : List Char) : List Char :=
  if pat.isEmpty then l else replaceFirstAux pat rep (l.length + 1) l

/-- Python `s.replace(a, b)` for single characters (used for `'+'` → `' '`). -/
def replaceChar (a b : Char) (l : List Char) : List Char :=
  l.map fun c => if c = a then b else c

/-- The prefix of `l` strictly before the first occurrence of `c`. -/
def takeUntilChar (c : Char) (l : List Char) : List Char :=
  l.takeWhile (· ≠ c)

/-- Drop everything strictly before the first occurrence of `c` (keeping `c`);
`[]` if `c` does not occur. -/
def dropUntilChar (c : Char) (l : List Char) : List Char :=
  l.dropWhile (· ≠ c)

/-- Python `s.rsplit('.', 1)` under the guarantee that `'.' ∈ s`:
the part before the last dot and the part after it. -/
def rsplitDot (l : List Char) : List Char × List Char :=
  let r := l.reverse
  let rext := r.takeWhile (· ≠ '.')
  let rbase := (r.dropWhile (· ≠ '.')).drop 1
  (rbase.reverse, rext.reverse)

/-- Python `s.strip()` restricted to trailing spaces (see
`sanitize_for_filename`). -/
def dropTrailingSpaces (l : List Char) : List Char :=
  (l.reverse.dropWhile (· = ' ')).reverse

/-! ## Decimal representation (Python `'%d' % n`)

Fuel-based so that it is structurally recursive; `natRepr` is the decimal
representation of a natural number, and we prove it injective (needed for
distinctness of the `_<n>` collision suffixes of the filename allocator). -/
def natReprAux : Nat → Nat → List Char → List Char
  | 0, _, acc => acc
  | fuel + 1, n, acc =>
      if n < 10 then Nat.digitChar n :: acc
      else natReprAux fuel (n / 10) (Nat.digitChar (n % 10) :: acc)

/-- Decimal digit list of `n` (most significant first). -/
def natDigits (n : Nat) : List Char := natReprAux (n + 1) n []

/-- Python `'%d' % n` / `str(n)`. -/
def natRepr (n : Nat) : String := String.mk (natDigits n)

/-! ## Percent encoding and decoding

`Modelled from the spec:` the repository's `utils.encode_url` / `utils.decode_url`
(the `utils` module is not among the available sources) — per §4.5 rewritten
paths are "percent-encoded for safe use in an `href`/`src` attribute", i.e.
`urllib` quoting with `'/'` kept safe, and decoding is ordinary percent
decoding.  Non-ASCII code points are encoded from their code point value
(faithful to `urllib` for the Latin-1 range; all inputs in the theorems
below are constrained accordingly). -/
def url_unreserved (c : Char) : Bool :=
  c.isAlphanum || c = '-' || c = '.' || c = '_' || c = '~' || c = '/'

def hexVal (c : Char) : Option Nat :=
  if c = '0' then some 0 else if c = '1' then some 1 else if c = '2' then some 2
  else if c = '3' then some 3 else if c = '4' then some 4 else if c = '5' then some 5
  else if c = '6' then some 6 else if c = '7' then some 7 else if c = '8' then some 8
  else if c = '9' then some 9 else if c = 'a' then some 10 else if c = 'b' then some 11
  else if c = 'c' then some 12 else if c = 'd' then some 13 else if c = 'e' then some 14
  else if c = 'f' then some 15 else none

def percentEncodeChar (c : Char) : List Char :=
  if url_unreserved c then [c]
  else '%' :: Nat.digitChar (c.toNat / 16 % 16) :: [Nat.digitChar (c.toNat % 16)]

/-- Modelled from the spec: `utils.encode_url` (percent-encoding, `'/'` safe). -/
def encode_url (s : String) : String :=
  String.mk (s.data.foldr (fun c acc => percentEncodeChar c ++ acc) [])

def percentDecodeAux : Nat → List Char → List Char
  | 0, l => l
  | _ + 1, [] => []
  | fuel + 1, '%' :: a :: b :: rest =>
      match hexVal a, hexVal b with
      | some x, some y => Char.ofNat (16 * x + y) :: percentDecodeAux fuel rest
      | _, _ => '%' :: percentDecodeAux fuel (a :: b :: rest)
  | fuel + 1, c :: rest => c :: percentDecodeAux fuel rest

/-- Modelled from the spec: `utils.decode_url` (percent-decoding). -/
def decode_url (s : String) : String :=
  String.mk (percentDecodeAux s.data.length s.data)

/-! ## Filename sanitization

`Modelled from the spec:` `utils.sanitize_for_filename` is in the `utils`
module, which is not among the available sources.  Per spec §4.2 it
strips/replaces characters illegal in target filesystems; the §8 scenario
(titles "Intro" and "Intro " both sanitize to the base "intro", emitting
`intro.html` and `intro_1.html`) additionally fixes that letters are
lowercased and trailing whitespace is dropped. -/
def illegal_filename_char (c : Char) : Bool :=
  c = '\\' || c = '/' || c = ':' || c = '*' || c = '?' || c = '"' ||
  c = '<' || c = '>' || c = '|'

def sanitize_for_filename (s : String) : String :=
  String.mk (dropTrailingSpaces
    (s.data.map fun c => if illegal_filename_char c then '_' else c.toLower))

/-- Modelled from the spec: `utils.is_file_format` — whether the file name's
extension (after the last dot) is one of the configured formats (§4.4:
"the derived filename's extension is in a configured ... allow-list"). -/
def is_file_format (file_name : String) (formats : List String) : Bool :=
  let ext := (rsplitDot file_name.data).2
  strContains file_name "." && formats.any fun f => f.data = ext

/-! ## Settings (from `src/settings.sample.py`) -/
def CONFLUENCE_BASE_URL : String := "http://192.168.240.188:8090"
def EXPORT_FOLDER : String := "export"
def DOWNLOAD_SUB_FOLDER : String := "attachments"
def CONFLUENCE_THUMBNAIL_FORMATS : List String := ["gif", "jpeg", "jpg", "png"]
def CONFLUENCE_GENERATED_PREVIEW_FORMATS : List String := ["pdf"]

/-! ## PageTab and FolderManager (`confluence_dumper.py` lines 200-261) -/
/-- `PageTab = namedtuple("PageTab", ['page_id', 'title', 'hash', 'space', 'mtime'])`.
Timestamps are embedded as integers (`dateutil` instants are totally ordered). -/
structure PageTab where
  page_id : Nat
  title : String
  hash : String
  space : String
  mtime : Int
deriving DecidableEq, Repr

/-- The per-folder filename scope of `FolderManager.__init__`. -/
structure FolderManager where
  folder : String
  title_to_filename : List (String × String)
  duplicate_filenames : List (String × Nat)
deriving DecidableEq, Repr

def FolderManager.init (folder : String) : FolderManager :=
  { folder := folder, title_to_filename := [], duplicate_filenames := [] }

/-- The base name and extension computed by `provide_unique_filename` before
collision handling (lines 222-233): sanitize, resolve the extension
(folder → none; explicit wins; else split at the last dot), trim to 60. -/
def computed_name_ext (file_title : String) (is_folder : Bool)
    (explicit_file_extension : Option String) : String × Option String :=
  let file_name := sanitize_for_filename file_title
  let p : String × Option String :=
    if is_folder then (file_name, none)
    else
      match explicit_file_extension with
      | some e => (file_name, some e)
      | none =>
          if strContains file_name "." then
            let q := rsplitDot file_name.data
            (String.mk q.1, some (String.mk q.2))
          else (file_name, none)
  (String.mk (p.1.data.take 60), p.2)

/-- `FolderManager.provide_unique_filename` (lines 206-246): memoized,
sanitized, collision-suffixed filename for a title. -/
def provide_unique_filename (fm : FolderManager) (file_title : String)
    (is_folder : Bool) (explicit_file_extension : Option String) :
    String × FolderManager :=
  match findVal fm.title_to_filename file_title with
  | some f => (f, fm)
  | none =>
      let ne := computed_name_ext file_title is_folder explicit_file_extension
      let base := ne.1
      let p : String × List (String × Nat) :=
        match findVal fm.duplicate_filenames base with
        | some n =>
            (base ++ "_" ++ natRepr (n + 1), setVal fm.duplicate_filenames base (n + 1))
        | none => (base, setVal fm.duplicate_filenames base 0)
      let file_name :=
        match ne.2 with
        | some e => p.1 ++ "." ++ e
        | none => p.1
      (file_name,
       { fm with title_to_filename := setVal fm.title_to_filename file_title file_name,
                 duplicate_filenames := p.2 })

/-! ## URL parsing (`urllib_parse.urlparse(url).path`)

Model of the Python standard library's path extraction for the URL shapes
this program handles: strip the fragment, strip the query, and for absolute
URLs strip `scheme://netloc`. -/
def urlparse_path_chars (l : List Char) : List Char :=
  let l := takeUntilChar '#' l
  let l := takeUntilChar '?' l
  match afterFirst [':', '/', '/'] l with
  | some rest => dropUntilChar '/' rest
  | none => l

def urlparse_path (url : String) : String :=
  String.mk (urlparse_path_chars url.data)

/-- `urllib_parse.urljoin(base, target)` for a root-relative `target`
(starting with `'/'`), the only shape the program joins (line 378): the
result keeps `scheme://netloc` of `base` and replaces its path. -/
def urljoin_rootpath (base target : String) : String :=
  match afterFirst [':', '/', '/'] base.data with
  | some rest => String.mk (base.data.take (base.data.length - rest.length)
      ++ takeUntilChar '/' rest) ++ target
  | none => target

/-! ## `derive_downloaded_file_name` (lines 309-337) -/
/-- Python `'%s' % x` where `x` is `str` or `None`. -/
def pyStrOpt : Option String → String
  | some s => s
  | none => "None"

def documentConversionPat : String :=
  "/rest/documentConversion/latest/conversion/thumbnail/"

/-- `derive_downloaded_file_name`: canonical local filename for a download
URL, or `none` if no pattern matches.  The `'/download/'` branch indexes
`parts[3]`/`parts[2]` exactly as the source does; on a path with fewer than
four `'/'`-separated parts the source raises `IndexError`, here those
indices default to `""` (theorems about this branch therefore carry a
segment-count hypothesis). -/
def derive_downloaded_file_name (download_url : String) : Option String :=
  let path := urlparse_path_chars download_url.data
  if listContainsSub path "/download/temp/".data then
    some ("temp_" ++ String.mk (lastSegment '/' path))
  else if listContainsSub path "/download/".data then
    let parts := pySplitChar '/' path
    let download_page_id := parts.getD 3 []
    let download_file_type := parts.getD 2 []
    let download_original_file_name := parts.getLastD []
    some (String.mk download_page_id ++ "_" ++ String.mk download_file_type
      ++ "_" ++ String.mk download_original_file_name)
  else if listContainsSub path documentConversionPat.data then
    let tail := (pySplitOn path documentConversionPat.data).getD 1 []
    let file_id := tail.take (tail.length - 2)
    some ("generated_preview_" ++ String.mk file_id ++ ".jpg")
  else
    none

/-! ## Tiny-URL resolution cache (`ConfluenceClient`, lines 39-113)

The redirect-following and its parsing (`utils.http_get_iterate_redirect_url`
plus the `display`/`pageId` branches, lines 90-109) perform network I/O; they
are abstracted as an oracle `resolve : hash → Option Nat` giving the page id
the loop would produce (`none` when no redirect yields one, e.g. a deleted
page).  Python's truthiness test `if page_id:` on that result is `n ≠ 0`.
The client's `__cached_tinyurl` dict is the threaded state, initially `[]`. -/
def get_page_id_by_tinyurl (resolve : String → Option Nat)
    (cache : List (String × Nat)) (tinyurl : String) :
    Option Nat × List (String × Nat) :=
  let hash_val := String.mk (lastSegment '/' tinyurl.data)
  match findVal cache hash_val with
  | some v => (some v, cache)
  | none =>
      match resolve hash_val with
      | some n =>
          if n ≠ 0 then (some n, setVal cache hash_val n) else (some n, cache)
      | none => (none, cache)

/-! ## HTML documents and `handle_html_references` (lines 346-414)

An lxml tree is modelled as the list of its elements in document order, each
with the attributes the rewriter touches (`href`, `src`, `class`, `alt`).
The five rules only mutate attributes of existing elements, so each rule's
xpath selection over the mutated tree is a traversal of the same list. -/
structure Elem where
  tag : String
  href : Option String
  src : Option String
  cls : Option String
  alt : Option String
deriving DecidableEq, Repr

/-- Python `if not link_element.get('class')`: the attribute is missing or
the empty string. -/
def noClass (e : Elem) : Bool :=
  match e.cls with
  | none => true
  | some s => s.isEmpty

/-- Traversal in document order threading a state (filename scope for rule 1,
tiny-URL cache for rule 2). -/
def mapStateAux {α σ : Type} (f : α → σ → α × σ) : List α → σ → List α × σ
  | [], s => ([], s)
  | e :: rest, s =>
      let p := f e s
      let q := mapStateAux f rest p.2
      (p.1 :: q.1, q.2)

/-- Rule 1 (lines 361-370): `//a[contains(@href, "/display/")]` without a
class — allocate a local filename for the decoded trailing path segment and
point the link at it (percent-encoded). -/
def rule1_step (e : Elem) (fm : FolderManager) : Elem × FolderManager :=
  match e.href with
  | some href =>
      if e.tag = "a" && strContains href "/display/" && noClass e then
        let path_name := urlparse_path href
        let page_title := String.mk (replaceChar '+' ' ' (lastSegment '/' path_name.data))
        let decoded_page_title := decode_url page_title
        let p := provide_unique_filename fm decoded_page_title false (some "html")
        ({ e with href := some (encode_url p.1) }, p.2)
      else (e, fm)
  | none => (e, fm)

/-- Rule 2 (lines 372-378): `//a[contains(@href, "/x/")]` without a class —
resolve the tiny URL; when the id is truthy, rewrite to the canonical
view-by-id URL (so rule 3 maps it to a local file). -/
def rule2_step (resolve : String → Option Nat) (e : Elem)
    (cache : List (String × Nat)) : Elem × List (String × Nat) :=
  match e.href with
  | some href =>
      if e.tag = "a" && strContains href "/x/" && noClass e then
        let r := get_page_id_by_tinyurl resolve cache href
        match r.1 with
        | some n =>
            if n ≠ 0 then
              ({ e with href := some (urljoin_rootpath href
                  ("/pages/viewpage.action?pageId=" ++ natRepr n)) }, r.2)
            else (e, r.2)
        | none => (e, r.2)
      else (e, cache)
  | none => (e, cache)

def viewpagePat : String := "/pages/viewpage.action?pageId="

/-- Rule 3 (lines 381-386): `//a[contains(@href, "/pages/viewpage.action?pageId=")]`
without a class — rewrite to `<sanitized id>.html`. -/
def rule3_step (e : Elem) : Elem :=
  match e.href with
  | some href =>
      if e.tag = "a" && strContains href viewpagePat && noClass e then
        let page_id := String.mk ((pySplitOn href.data viewpagePat.data).getD 1 [])
        let offline_link := sanitize_for_filename page_id ++ ".html"
        { e with href := some (encode_url offline_link) }
      else e
  | none => e

/-- Rule 4 (lines 389-395): `//a[contains(@class, "confluence-embedded-file")]` —
rewrite to the derived attachment path (not percent-encoded: the encoding
call is commented out in the source). -/
def rule4_step (e : Elem) : Elem :=
  match e.href with
  | some href =>
      if e.tag = "a" &&
          (match e.cls with
           | some c => strContains c "confluence-embedded-file"
           | none => false) then
        let file_name := derive_downloaded_file_name href
        { e with href := some (DOWNLOAD_SUB_FOLDER ++ "/" ++ pyStrOpt file_name) }
      else e
  | none => e

/-- Rule 5 (lines 400-412): download / generated-thumbnail `img` sources —
rewrite the source and add an `alt` attribute if absent. -/
def rule5_step (e : Elem) : Elem :=
  match e.src with
  | some src =>
      if e.tag = "img" &&
          (strContains src "/download/" || strContains src documentConversionPat) then
        let file_name := derive_downloaded_file_name src
        let relative_file_path := DOWNLOAD_SUB_FOLDER ++ "/" ++ pyStrOpt file_name
        { e with src := some relative_file_path,
                 alt := match e.alt with
                        | none => some relative_file_path
                        | some a => some a }
      else e
  | none => e

structure RewriteResult where
  doc : List Elem
  page_fm : FolderManager
  tiny_cache : List (String × Nat)
deriving DecidableEq, Repr

/-- `handle_html_references` on a parsed tree: the five rules in their fixed
source order, threading the page filename scope (rule 1) and the tiny-URL
cache (rule 2). -/
def handle_html_references (resolve : String → Option Nat) (doc : List Elem)
    (page_fm : FolderManager) (cache : List (String × Nat)) : RewriteResult :=
  let p1 := mapStateAux rule1_step doc page_fm
  let p2 := mapStateAux (rule2_step resolve) p1.1 cache
  let d3 := p2.1.map rule3_step
  let d4 := d3.map rule4_step
  let d5 := d4.map rule5_step
  { doc := d5, page_fm := p1.2, tiny_cache := p2.2 }

/-- `lxml.html.tostring`, reduced to the modelled attributes. -/
def renderAttr (name : String) (v : Option String) : String :=
  match v with
  | some s => " " ++ name ++ "=" ++ s
  | none => ""

def renderElem (e : Elem) : String :=
  "<" ++ e.tag ++ renderAttr "href" e.href ++ renderAttr "src" e.src
    ++ renderAttr "class" e.cls ++ renderAttr "alt" e.alt ++ ">"

def renderDoc (doc : List Elem) : String := String.join (doc.map renderElem)

/-! ## Run state, filesystem and remote oracles

Observable effects are recorded as events (most recent first); the output
filesystem is an association of existing paths to content stamps (downloads
stamp with the oracle's value, HTML writes with 0), which is what
`os.path.exists` consults in `download_file`. -/
inductive Event where
  | netDownload (url : String)
  | fileWrite (path : String) (content : String)
  | dbUpsert (page : PageTab)
  | errorOut (msg : String)
  | warnOut (msg : String)
  | finished
deriving DecidableEq, Repr

/-- The external HTTP capability (the `utils` transport functions are not
among the available sources; modelled from the spec as
`fetch/downloadBinary` oracles): `tinyResolve` abstracts the redirect chain
of a tiny URL to the page id it yields, `downloadData` the binary download
(`none` = `ConfluenceException`). -/
structure Remote where
  tinyResolve : String → Option Nat
  downloadData : String → Option Nat

/-- The mutable state threaded through one space's export: the two filename
scopes of `SpaceFileSystem`, the sqlite `page_tab` table, the client's
tiny-URL cache, the output filesystem and the event log. -/
structure DumpState where
  page_fm : FolderManager
  download_fm : FolderManager
  db : List (Nat × PageTab)
  tiny_cache : List (String × Nat)
  files : List (String × Nat)
  events : List Event
deriving DecidableEq, Repr

/-- `ConfluenceDatabase.get_page_by_id`. -/
def get_page_by_id (db : List (Nat × PageTab)) (page_id : Nat) : Option PageTab :=
  findVal db page_id

/-- `ConfluenceDatabase.upsert_page`: insert if absent, else overwrite. -/
def upsert_page (db : List (Nat × PageTab)) (page : PageTab) : List (Nat × PageTab) :=
  setVal db page.page_id page

/-- Modelled from the spec: `utils.write_html_2_file` — renders `content`
into the template and writes it at `path`. -/
def write_html_2_file (path content : String) (st : DumpState) : DumpState :=
  { st with files := setVal st.files path 0,
            events := Event.fileWrite path content :: st.events }

/-- `download_file` (lines 433-461): skip if the path exists, otherwise
attempt the download; a `ConfluenceException` is reported (error or warning
according to `error_output`) and swallowed. -/
def download_file (remote : Remote)
    (clean_url download_folder downloaded_file_name : String)
    (error_output : Bool) (st : DumpState) : String × DumpState :=
  let downloaded_file_path := download_folder ++ "/" ++ downloaded_file_name
  match findVal st.files downloaded_file_path with
  | some _ => (downloaded_file_path, st)
  | none =>
      let absolute_download_url := CONFLUENCE_BASE_URL ++ clean_url
      match remote.downloadData absolute_download_url with
      | some data =>
          (downloaded_file_path,
           { st with files := setVal st.files downloaded_file_path data,
                     events := Event.netDownload absolute_download_url :: st.events })
      | none =>
          (downloaded_file_path,
           { st with events :=
              (if error_output then Event.errorOut "download"
               else Event.warnOut "download")
                :: Event.netDownload absolute_download_url :: st.events })

/-- `download_attachment` (lines 464-493): primary file, then opportunistic
thumbnail (image formats) and generated preview (preview formats), each name
allocated in the download scope.  Returns `('file_name', 'file_path')`. -/
def download_attachment (remote : Remote) (download_url : String)
    (attachment_id : Option String) (st : DumpState) :
    (String × String) × DumpState :=
  let clean_url := decode_url download_url
  let dfn := derive_downloaded_file_name clean_url
  let p1 := provide_unique_filename st.download_fm (pyStrOpt dfn) false none
  let downloaded_file_name := p1.1
  let st := { st with download_fm := p1.2 }
  let q := download_file remote download_url st.download_fm.folder downloaded_file_name true st
  let downloaded_file_path := q.1
  let st := q.2
  let clean_thumbnail_url :=
    String.mk (pyReplaceFirst clean_url.data "/attachments/".data "/thumbnails/".data)
  let tfn := derive_downloaded_file_name clean_thumbnail_url
  let p2 := provide_unique_filename st.download_fm (pyStrOpt tfn) false none
  let downloaded_thumbnail_file_name := p2.1
  let st := { st with download_fm := p2.2 }
  let st :=
    if is_file_format downloaded_thumbnail_file_name CONFLUENCE_THUMBNAIL_FORMATS then
      (download_file remote clean_thumbnail_url st.download_fm.folder
        downloaded_thumbnail_file_name false st).2
    else st
  let st :=
    match attachment_id with
    | some aid =>
        if is_file_format downloaded_file_name CONFLUENCE_GENERATED_PREVIEW_FORMATS then
          let clean_preview_url := documentConversionPat ++ aid ++ "/1"
          let pfn := derive_downloaded_file_name clean_preview_url
          let p3 := provide_unique_filename st.download_fm (pyStrOpt pfn) false none
          let st := { st with download_fm := p3.2 }
          (download_file remote clean_preview_url st.download_fm.folder p3.1 false st).2
        else st
    | none => st
  ((downloaded_file_name, downloaded_file_path), st)

/-- `download_attachments_of_page` (lines 513-526) over the page's listed
attachments, each a `(download url, attachment id)` pair (the id already
sliced by `[3:]` as in the source). -/
def download_attachments_of_page (remote : Remote)
    (atts : List (String × String)) (st : DumpState) :
    List (String × String) × DumpState :=
  match atts with
  | [] => ([], st)
  | (url, aid) :: rest =>
      let p := download_attachment remote url (some aid) st
      let q := download_attachments_of_page remote rest p.2
      (p.1 :: q.1, q.2)

/-- The `//img[contains(@src, "/download/temp/")]` selection of
`download_temp_attachments_of_page` (lines 529-542). -/
def temp_image_urls (tree : Option (List Elem)) : List String :=
  match tree with
  | none => []
  | some doc =>
      doc.filterMap fun e =>
        match e.src with
        | some src =>
            if e.tag = "img" && strContains src "/download/temp/" then some src
            else none
        | none => none

def download_temp_attachments_of_page (remote : Remote)
    (urls : List String) (st : DumpState) :
    List (String × String) × DumpState :=
  match urls with
  | [] => ([], st)
  | url :: rest =>
      let p := download_attachment remote url none st
      let q := download_temp_attachments_of_page remote rest p.2
      (p.1 :: q.1, q.2)

/-- `create_html_attachment_index` (lines 496-510). -/
def create_html_attachment_index (attachments : List (String × String)) : String :=
  let base := "\n\n<h2>Attachments</h2>"
  if attachments.length > 0 then
    base ++ "<ul>\n" ++ String.join (attachments.map fun a =>
      let relative_file_path :=
        String.intercalate "/" (((pySplitChar '/' a.2.data).drop 2).map String.mk)
      let rp := encode_url relative_file_path
      "\t<li><a href=\"" ++ rp ++ "\">" ++ a.1 ++ "</a></li>\n") ++ "</ul>\n"
  else base

/-- `SpaceFileSystem.get_id_file_path`. -/
def get_id_file_path (folder : String) (page_id : Nat) : String :=
  folder ++ "/" ++ natRepr page_id ++ ".html"

/-- `settings.HTML_FORWARD_MESSAGE % (link, title)`. -/
def HTML_FORWARD_MESSAGE (link title : String) : String :=
  "<a href=\"" ++ link ++ "\">If you are not automatically forwarded to "
    ++ title ++ ", please click here!</a>"

/-- `generate_id_reverse_file` (lines 417-430): the `<page id>.html` forward
stub. -/
def generate_id_reverse_file (page : PageTab) (file_name : String)
    (st : DumpState) : DumpState :=
  let id_file_path := get_id_file_path st.page_fm.folder page.page_id
  let original_file_link := encode_url (sanitize_for_filename file_name)
  write_html_2_file id_file_path (HTML_FORWARD_MESSAGE original_file_link page.title) st

/-! ## PageInfo and the recursive fetch (lines 264-294, 545-610) -/
/-- `PageInfo`: the exported-page descriptor.  `page` is `none` only for the
synthetic per-space index root; `file_path` holds the file *name* exactly as
passed at construction (line 570). -/
inductive PageInfo where
  | mk (page : Option PageTab) (page_content : String) (file_path : String)
      (child_pages : List PageInfo) (child_attachments : List (String × String))

def PageInfo.page : PageInfo → Option PageTab
  | .mk p _ _ _ _ => p

def PageInfo.page_content : PageInfo → String
  | .mk _ c _ _ _ => c

def PageInfo.file_path : PageInfo → String
  | .mk _ _ f _ _ => f

def PageInfo.child_pages : PageInfo → List PageInfo
  | .mk _ _ _ c _ => c

def PageInfo.child_attachments : PageInfo → List (String × String)
  | .mk _ _ _ _ a => a

/-- `PageInfo.append_child_page` (lines 272-274): append only truthy results
(a `PageInfo` instance is always truthy; `None` is dropped). -/
def append_child_page (child_pages : List PageInfo) (page : Option PageInfo) :
    List PageInfo :=
  match page with
  | some p => child_pages ++ [p]
  | none => child_pages

/-- The children list accumulated by the per-child `append_child_page` calls. -/
def appendChildren (rs : List (Option PageInfo)) : List PageInfo :=
  rs.foldl append_child_page []

/-- One remote page as `get_page_details_by_page_id` + child iteration
observe it: its `PageTab`, raw body, the parse outcome of the body
(`parse_html_tree`; `none` for an empty body or an `XMLSyntaxError`), its
attachment listing, and whether fetching its details raises
`ConfluenceException`. -/
structure RemotePage where
  tab : PageTab
  body : String
  htmlTree : Option (List Elem)
  attachments : List (String × String)
  fails : Bool

mutual
inductive RTree where
  | node : RemotePage → RForest → RTree
inductive RForest where
  | nil : RForest
  | cons : RTree → RForest → RForest
end
/-- The staleness test of line 562:
`is_new_page = not page_db or page_db.mtime < page.mtime or force_update`. -/
def is_new_page (page_db : Option PageTab) (page : PageTab)
    (force_update : Bool) : Bool :=
  match page_db with
  | none => true
  | some old => decide (old.mtime < page.mtime) || force_update

/-- The body of the `if is_new_page:` branch (lines 572-599): download the
page's attachments and inline temp attachments, rewrite links, write the
page file, write the id-forward stub, upsert the cache row.  Returns the
collected attachment records. -/
def render_page (remote : Remote) (p : RemotePage) (file_name : String)
    (st : DumpState) : List (String × String) × DumpState :=
  let a1 := download_attachments_of_page remote p.attachments st
  let a2 := download_temp_attachments_of_page remote (temp_image_urls p.htmlTree) a1.2
  let attach := a1.1 ++ a2.1
  let r : String × DumpState :=
    match p.htmlTree with
    | none => (p.body, a2.2)
    | some doc =>
        let rr := handle_html_references remote.tinyResolve doc a2.2.page_fm a2.2.tiny_cache
        (renderDoc rr.doc, { a2.2 with page_fm := rr.page_fm, tiny_cache := rr.tiny_cache })
  let file_path := r.2.page_fm.folder ++ "/" ++ file_name
  let page_content := r.1 ++ create_html_attachment_index attach
  let st := write_html_2_file file_path page_content r.2
  let st := generate_id_reverse_file p.tab file_name st
  let st := { st with db := upsert_page st.db p.tab,
                      events := Event.dbUpsert p.tab :: st.events }
  (attach, st)

mutual
/-- `fetch_page_recursively` (lines 545-610) over the remote page tree:
returns the `PageInfo` (or `none` when a `ConfluenceException` was caught)
and the final state. -/
def fetch_page_recursively (remote : Remote) (t : RTree) (st : DumpState)
    (force_update : Bool) : Option PageInfo × DumpState :=
  match t with
  | .node p kids =>
      if p.fails then (none, { st with events := Event.errorOut "page" :: st.events })
      else
        let page := p.tab
        let page_db := get_page_by_id st.db page.page_id
        let fp := provide_unique_filename st.page_fm page.title false (some "html")
        let st1 : DumpState := { st with page_fm := fp.2 }
        let r :=
          if is_new_page page_db page force_update then render_page remote p fp.1 st1
          else ([], st1)
        let c := fetch_child_pages remote kids r.2 force_update
        (some (PageInfo.mk (some page) p.body fp.1 (appendChildren c.1) r.1), c.2)

/-- The child loop of lines 602-604: every child is processed in order, each
result (possibly `none`) collected. -/
def fetch_child_pages (remote : Remote) (ts : RForest) (st : DumpState)
    (force_update : Bool) : List (Option PageInfo) × DumpState :=
  match ts with
  | .nil => ([], st)
  | .cons t rest =>
      let p := fetch_page_recursively remote t st force_update
      let q := fetch_child_pages remote rest p.2 force_update
      (p.1 :: q.1, q.2)
end
/-! ## The per-space loop of `main` (lines 646-713)

Modelled per configured space: the folders are created with `mkdir` (which
swallows every exception, line 649-650, so a pre-existing folder does not
raise), then the space is exported inside a `try` that catches
`ConfluenceException` at space level.  The index file's content assembly
(`generate_index_content`) is plain string formatting of the already
computed tree and no claim depends on it, so the index write records an
empty content.  The database, tiny-URL cache, filesystem and event log are
shared across spaces; the two filename scopes are fresh per space
(`SpaceFileSystem`, line 688). -/
structure RunState where
  db : List (Nat × PageTab)
  tiny_cache : List (String × Nat)
  files : List (String × Nat)
  dirs : List String
  events : List Event
deriving DecidableEq, Repr

/-- `mkdir` (lines 646-650): `os.makedirs` under `try/except: pass` — a
pre-existing folder leaves the filesystem unchanged and raises nothing. -/
def mkdir (dirs : List String) (folder : String) : List String :=
  if dirs.contains folder then dirs else folder :: dirs

/-- One configured space: its key, whether `get_homepage_info` raises
`ConfluenceException`, and the remote trees of its target pages (the
configured page ids, or the space homepage when none are configured). -/
structure SpaceJob where
  key : String
  homepageFails : Bool
  targets : RForest

/-- The body of the `for space ... in spaces_pages_to_export.items()` loop
(lines 680-710). -/
def export_space (remote : Remote) (job : SpaceJob) (force_update : Bool)
    (rs : RunState) : RunState :=
  let space_folder := EXPORT_FOLDER ++ "/" ++ job.key
  let dirs := mkdir rs.dirs space_folder
  let download_folder := space_folder ++ "/" ++ DOWNLOAD_SUB_FOLDER
  let dirs := mkdir dirs download_folder
  if job.homepageFails then
    { rs with dirs := dirs, events := Event.errorOut "space" :: rs.events }
  else
    let st0 : DumpState :=
      { page_fm := FolderManager.init space_folder,
        download_fm := FolderManager.init download_folder,
        db := rs.db, tiny_cache := rs.tiny_cache, files := rs.files,
        events := rs.events }
    let c := fetch_child_pages remote job.targets st0 force_update
    let st1 := write_html_2_file (space_folder ++ "/index.html") "" c.2
    { db := st1.db, tiny_cache := st1.tiny_cache, files := st1.files,
      dirs := dirs, events := st1.events }

/-- The space loop followed by `print_finished_output` (line 713): every
configured space is attempted, and the completion marker is always emitted. -/
def main_loop (remote : Remote) (jobs : List SpaceJob) (force_update : Bool)
    (rs : RunState) : RunState :=
  match jobs with
  | [] => { rs with events := Event.finished :: rs.events }
  | j :: rest =>
      main_loop remote rest force_update (export_space remote j force_update rs)

/-! ## Helper definitions for the allocator theorems -/
/-- Attaching the resolved extension (lines 242-243). -/
def attachExt (s : String) : Option String → String
  | some e => s ++ "." ++ e
  | none => s

/-- One recorded call to `provide_unique_filename`. -/
structure AllocCall where
  title : String
  is_folder : Bool
  ext : Option String

/-- Run a sequence of allocation calls against a scope. -/
def runAllocs (fm : FolderManager) : List AllocCall → FolderManager
  | [] => fm
  | c :: rest => runAllocs (provide_unique_filename fm c.title c.is_folder c.ext).2 rest

/-! ## String-scanning lemmas for the link-rewriting theorems -/
def listEncode (l : List Char) : List Char :=
  l.foldr (fun c acc => percentEncodeChar c ++ acc) []

/-! ## Theorems -/

theorem findVal_setVal_self {κ α : Type} [DecidableEq κ]
    (m : List (κ × α)) (k : κ) (v : α) : findVal (setVal m k v) k = some v := by
  induction m with
  | nil => simp [setVal, findVal]
  | cons hd tl ih =>
      obtain ⟨k', v'⟩ := hd
      by_cases h : k' = k <;> simp [setVal, findVal, h, ih]

theorem findVal_setVal_other {κ α : Type} [DecidableEq κ]
    (m : List (κ × α)) (k k' : κ) (v : α) (h : k ≠ k') :
    findVal (setVal m k v) k' = findVal m k' := by
  induction m with
  | nil => simp [setVal, findVal, h]
  | cons hd tl ih =>
      obtain ⟨k0, v0⟩ := hd
      by_cases h0 : k0 = k
      · subst h0
        simp [setVal, findVal, h]
      · simp only [setVal, if_neg h0]
        by_cases h1 : k0 = k' <;> simp [findVal, h1, ih]

theorem natReprAux_append (fuel : Nat) :
    ∀ (n : Nat) (acc : List Char),
      natReprAux fuel n acc = natReprAux fuel n [] ++ acc := by
  induction fuel with
  | zero => intro n acc; simp [natReprAux]
  | succ f ih =>
      intro n acc
      by_cases h : n < 10
      · simp [natReprAux, h]
      · simp only [natReprAux, if_neg h]
        rw [ih (n / 10) (Nat.digitChar (n % 10) :: acc),
            ih (n / 10) [Nat.digitChar (n % 10)]]
        simp

theorem natReprAux_fuel_irrel (fuel : Nat) :
    ∀ (fuel' n : Nat), n < fuel → n < fuel' →
      natReprAux fuel n [] = natReprAux fuel' n [] := by
  induction fuel with
  | zero => intro fuel' n h; omega
  | succ f ih =>
      intro fuel' n h h'
      match fuel', h' with
      | f' + 1, h' =>
        by_cases h10 : n < 10
        · simp [natReprAux, h10]
        · have hn : 0 < n := by omega
          have hdiv : n / 10 < n := Nat.div_lt_self hn (by omega)
          simp only [natReprAux, if_neg h10]
          rw [natReprAux_append f, natReprAux_append f']
          rw [ih f' (n / 10) (by omega) (by omega)]

theorem natDigits_small {n : Nat} (h : n < 10) :
    natDigits n = [Nat.digitChar n] := by
  simp [natDigits, natReprAux, h]

theorem natDigits_large {n : Nat} (h : ¬ n < 10) :
    natDigits n = natDigits (n / 10) ++ [Nat.digitChar (n % 10)] := by
  have hn : 0 < n := by omega
  have hdiv : n / 10 < n := Nat.div_lt_self hn (by omega)
  have step : natReprAux (n + 1) n [] = natReprAux n (n / 10) [Nat.digitChar (n % 10)] := by
    simp only [natReprAux, if_neg h]
  rw [natDigits, step, natReprAux_append n,
    natReprAux_fuel_irrel n (n / 10 + 1) (n / 10) (by omega) (by omega)]
  rfl

theorem natDigits_ne_nil (n : Nat) : natDigits n ≠ [] := by
  by_cases h : n < 10
  · simp [natDigits_small h]
  · simp [natDigits_large h]

theorem digitChar_inj_lt10 : ∀ a < 10, ∀ b < 10,
    Nat.digitChar a = Nat.digitChar b → a = b := by decide

theorem digitChar_isDigit : ∀ d < 10, (Nat.digitChar d).isDigit = true := by decide

theorem natDigits_inj : ∀ m n : Nat, natDigits m = natDigits n → m = n := by
  intro m
  induction m using Nat.strong_induction_on with
  | _ m ih =>
    intro n heq
    by_cases hm : m < 10
    · by_cases hn : n < 10
      · rw [natDigits_small hm, natDigits_small hn] at heq
        exact digitChar_inj_lt10 m hm n hn (by injection heq)
      · rw [natDigits_small hm, natDigits_large hn] at heq
        have h1 : (1 : Nat) = (natDigits (n / 10)).length + 1 := by
          simpa using congrArg List.length heq
        have := natDigits_ne_nil (n / 10)
        cases hd : natDigits (n / 10) with
        | nil => exact absurd hd this
        | cons a as => rw [hd] at h1; simp at h1
    · by_cases hn : n < 10
      · rw [natDigits_large hm, natDigits_small hn] at heq
        have h1 : (natDigits (m / 10)).length + 1 = 1 := by
          simpa using congrArg List.length heq
        have := natDigits_ne_nil (m / 10)
        cases hd : natDigits (m / 10) with
        | nil => exact absurd hd this
        | cons a as => rw [hd] at h1; simp at h1
      · rw [natDigits_large hm, natDigits_large hn] at heq
        have hlen : ([Nat.digitChar (m % 10)] : List Char).length
            = ([Nat.digitChar (n % 10)] : List Char).length := by simp
        obtain ⟨h1, h2⟩ := List.append_inj' heq hlen
        have hdivm : m / 10 < m := Nat.div_lt_self (by omega) (by omega)
        have hq : m / 10 = n / 10 := ih (m / 10) hdivm (n / 10) h1
        have hr : m % 10 = n % 10 :=
          digitChar_inj_lt10 _ (Nat.mod_lt _ (by omega)) _ (Nat.mod_lt _ (by omega))
            (by injection h2)
        omega

theorem natRepr_inj {m n : Nat} (h : natRepr m = natRepr n) : m = n := by
  apply natDigits_inj
  have : (natRepr m).data = (natRepr n).data := by rw [h]
  simpa [natRepr] using this

theorem natDigits_mem_isDigit : ∀ (n : Nat), ∀ c ∈ natDigits n, c.isDigit := by
  intro n
  induction n using Nat.strong_induction_on with
  | _ n ih =>
    intro c hc
    by_cases h : n < 10
    · rw [natDigits_small h] at hc
      simp at hc
      subst hc
      exact digitChar_isDigit n h
    · rw [natDigits_large h] at hc
      rcases List.mem_append.1 hc with h1 | h2
      · exact ih (n / 10) (Nat.div_lt_self (by omega) (by omega)) c h1
      · simp at h2
        subst h2
        exact digitChar_isDigit _ (Nat.mod_lt _ (by omega))

/-! ## Allocator lemmas -/
theorem string_data_inj {s t : String} (h : s.data = t.data) : s = t := by
  cases s; cases t; simp_all

theorem provide_memo (fm : FolderManager) (t f : String) (isf : Bool)
    (ext : Option String) (h : findVal fm.title_to_filename t = some f) :
    provide_unique_filename fm t isf ext = (f, fm) := by
  simp [provide_unique_filename, h]

theorem provide_result_mem (fm : FolderManager) (t : String) (isf : Bool)
    (ext : Option String) :
    findVal (provide_unique_filename fm t isf ext).2.title_to_filename t
      = some (provide_unique_filename fm t isf ext).1 := by
  cases h : findVal fm.title_to_filename t with
  | none => simp [provide_unique_filename, h, findVal_setVal_self]
  | some f => simp [provide_unique_filename, h]

theorem provide_preserves_mem (fm : FolderManager) (t f t' : String) (isf : Bool)
    (ext : Option String) (h : findVal fm.title_to_filename t = some f) :
    findVal (provide_unique_filename fm t' isf ext).2.title_to_filename t = some f := by
  cases ht' : findVal fm.title_to_filename t' with
  | none =>
      have hne : t' ≠ t := by
        intro e; subst e; rw [h] at ht'; cases ht'
      simp [provide_unique_filename, ht', findVal_setVal_other _ _ _ _ hne, h]
  | some f' => simp [provide_unique_filename, ht', h]

theorem runAllocs_preserves_mem (calls : List AllocCall) :
    ∀ (fm : FolderManager) (t f : String),
      findVal fm.title_to_filename t = some f →
      findVal (runAllocs fm calls).title_to_filename t = some f := by
  induction calls with
  | nil => intro fm t f h; simpa [runAllocs] using h
  | cons c rest ih =>
      intro fm t f h
      exact ih _ t f (provide_preserves_mem fm t f c.title c.is_folder c.ext h)

theorem provide_fresh_base_new (fm : FolderManager) (t : String) (isf : Bool)
    (ext : Option String) (ht : findVal fm.title_to_filename t = none)
    (hd : findVal fm.duplicate_filenames (computed_name_ext t isf ext).1 = none) :
    (provide_unique_filename fm t isf ext).1
        = attachExt (computed_name_ext t isf ext).1 (computed_name_ext t isf ext).2
      ∧ findVal (provide_unique_filename fm t isf ext).2.duplicate_filenames
          (computed_name_ext t isf ext).1 = some 0 := by
  cases hext : (computed_name_ext t isf ext).2 with
  | none => simp [provide_unique_filename, ht, hd, hext, attachExt, findVal_setVal_self]
  | some e => simp [provide_unique_filename, ht, hd, hext, attachExt, findVal_setVal_self]

theorem provide_fresh_base_dup (fm : FolderManager) (t : String) (isf : Bool)
    (ext : Option String) (k : Nat) (ht : findVal fm.title_to_filename t = none)
    (hd : findVal fm.duplicate_filenames (computed_name_ext t isf ext).1 = some k) :
    (provide_unique_filename fm t isf ext).1
        = attachExt ((computed_name_ext t isf ext).1 ++ "_" ++ natRepr (k + 1))
            (computed_name_ext t isf ext).2
      ∧ findVal (provide_unique_filename fm t isf ext).2.duplicate_filenames
          (computed_name_ext t isf ext).1 = some (k + 1) := by
  cases hext : (computed_name_ext t isf ext).2 with
  | none => simp [provide_unique_filename, ht, hd, hext, attachExt, findVal_setVal_self]
  | some e => simp [provide_unique_filename, ht, hd, hext, attachExt, findVal_setVal_self]

theorem provide_dup_mono (fm : FolderManager) (t : String) (isf : Bool)
    (ext : Option String) (b : String) (k : Nat)
    (h : findVal fm.duplicate_filenames b = some k) :
    ∃ k', findVal (provide_unique_filename fm t isf ext).2.duplicate_filenames b
        = some k' ∧ k ≤ k' := by
  cases ht : findVal fm.title_to_filename t with
  | some f => exact ⟨k, by simp [provide_unique_filename, ht, h], Nat.le_refl k⟩
  | none =>
      by_cases hb : (computed_name_ext t isf ext).1 = b
      · subst hb
        cases hd : findVal fm.duplicate_filenames (computed_name_ext t isf ext).1 with
        | none => rw [h] at hd; cases hd
        | some n =>
            have hkn : k = n := by rw [h] at hd; injection hd
            subst hkn
            refine ⟨k + 1, ?_, Nat.le_succ k⟩
            simp [provide_unique_filename, ht, hd, findVal_setVal_self]
      · cases hd : findVal fm.duplicate_filenames (computed_name_ext t isf ext).1 with
        | none =>
            exact ⟨k, by simp [provide_unique_filename, ht, hd,
              findVal_setVal_other _ _ _ _ hb, h], Nat.le_refl k⟩
        | some n =>
            exact ⟨k, by simp [provide_unique_filename, ht, hd,
              findVal_setVal_other _ _ _ _ hb, h], Nat.le_refl k⟩

theorem runAllocs_dup_mono (calls : List AllocCall) :
    ∀ (fm : FolderManager) (b : String) (k : Nat),
      findVal fm.duplicate_filenames b = some k →
      ∃ k', findVal (runAllocs fm calls).duplicate_filenames b = some k' ∧ k ≤ k' := by
  induction calls with
  | nil => intro fm b k h; exact ⟨k, by simpa [runAllocs] using h, Nat.le_refl k⟩
  | cons c rest ih =>
      intro fm b k h
      obtain ⟨k1, h1, hk1⟩ := provide_dup_mono fm c.title c.is_folder c.ext b k h
      obtain ⟨k2, h2, hk2⟩ := ih _ b k1 h1
      exact ⟨k2, h2, Nat.le_trans hk1 hk2⟩

theorem attachExt_ne {x y : String} (eo : Option String) (h : x.data ≠ y.data) :
    attachExt x eo ≠ attachExt y eo := by
  cases eo with
  | none =>
      intro he
      exact h (congrArg String.data he)
  | some e =>
      intro he
      apply h
      have hd : ((x ++ ".") ++ e).data = ((y ++ ".") ++ e).data := by
        simpa [attachExt, String.append_assoc] using congrArg String.data he
      rw [String.data_append, String.data_append, String.data_append,
          String.data_append] at hd
      have := List.append_cancel_right hd
      exact List.append_cancel_right this

theorem base_ne_suffixed (b : String) (j : Nat) :
    b.data ≠ (b ++ "_" ++ natRepr j).data := by
  intro h
  have hlen := congrArg List.length h
  rw [String.data_append, String.data_append] at hlen
  have hpos : 0 < (natRepr j).data.length := by
    show 0 < (natDigits j).length
    cases hd : natDigits j with
    | nil => exact absurd hd (natDigits_ne_nil j)
    | cons a as => simp
  simp only [List.length_append] at hlen
  have h1 : "_".data.length = 1 := rfl
  rw [h1] at hlen
  omega

theorem suffixed_ne (b : String) (j k : Nat) (h : j ≠ k) :
    ((b ++ "_" ++ natRepr j)).data ≠ ((b ++ "_" ++ natRepr k)).data := by
  intro he
  rw [String.data_append, String.data_append, String.data_append,
      String.data_append] at he
  have h2 := List.append_cancel_left he
  exact h (natDigits_inj j k h2)

/-- Claim C1 (amended).  Within one `FolderManager` scope: (1) once a title
has been assigned a filename, every repeated call with that same title — even
after an arbitrary sequence of other allocations — returns that
first-assigned filename; and (2) two distinct titles whose computed base
name and extension coincide (e.g. titles sanitizing to the same base, like
"Intro" and "Intro ") always receive distinct filenames.  The original
claim's stronger assertion — uniqueness across *all* titles, including one
whose sanitized form equals an already-suffixed allocation such as
`intro_1` — is false; see the counterexample. -/
theorem claim_C1 :
    (∀ (fm : FolderManager) (t : String) (isf : Bool) (ext : Option String)
        (calls : List AllocCall) (isf' : Bool) (ext' : Option String),
      (provide_unique_filename
          (runAllocs (provide_unique_filename fm t isf ext).2 calls) t isf' ext').1
        = (provide_unique_filename fm t isf ext).1)
  ∧ (∀ (fm : FolderManager) (t1 : String) (isf1 : Bool) (ext1 : Option String)
        (calls : List AllocCall) (t2 : String) (isf2 : Bool) (ext2 : Option String),
      findVal fm.title_to_filename t1 = none →
      findVal (runAllocs
          (provide_unique_filename fm t1 isf1 ext1).2 calls).title_to_filename t2 = none →
      computed_name_ext t2 isf2 ext2 = computed_name_ext t1 isf1 ext1 →
      (provide_unique_filename
          (runAllocs (provide_unique_filename fm t1 isf1 ext1).2 calls) t2 isf2 ext2).1
        ≠ (provide_unique_filename fm t1 isf1 ext1).1) := by
  constructor
  · intro fm t isf ext calls isf' ext'
    have h1 := provide_result_mem fm t isf ext
    have h2 := runAllocs_preserves_mem calls _ t _ h1
    rw [provide_memo _ t _ isf' ext' h2]
  · intro fm t1 isf1 ext1 calls t2 isf2 ext2 ht1 ht2 heq
    cases hd : findVal fm.duplicate_filenames (computed_name_ext t1 isf1 ext1).1 with
    | none =>
        obtain ⟨hf1, hdup1⟩ := provide_fresh_base_new fm t1 isf1 ext1 ht1 hd
        obtain ⟨m, hm, _⟩ := runAllocs_dup_mono calls _ _ 0 hdup1
        have hd2 : findVal (runAllocs (provide_unique_filename fm t1 isf1 ext1).2
            calls).duplicate_filenames (computed_name_ext t2 isf2 ext2).1 = some m := by
          rw [heq]; exact hm
        obtain ⟨hf2, _⟩ := provide_fresh_base_dup _ t2 isf2 ext2 m ht2 hd2
        rw [hf1, hf2, heq]
        exact attachExt_ne _ fun h =>
          base_ne_suffixed (computed_name_ext t1 isf1 ext1).1 (m + 1) h.symm
    | some k =>
        obtain ⟨hf1, hdup1⟩ := provide_fresh_base_dup fm t1 isf1 ext1 k ht1 hd
        obtain ⟨m, hm, hkm⟩ := runAllocs_dup_mono calls _ _ (k + 1) hdup1
        have hd2 : findVal (runAllocs (provide_unique_filename fm t1 isf1 ext1).2
            calls).duplicate_filenames (computed_name_ext t2 isf2 ext2).1 = some m := by
          rw [heq]; exact hm
        obtain ⟨hf2, _⟩ := provide_fresh_base_dup _ t2 isf2 ext2 m ht2 hd2
        rw [hf1, hf2, heq]
        exact attachExt_ne _
          (suffixed_ne (computed_name_ext t1 isf1 ext1).1 (m + 1) (k + 1) (by omega))

/-- Claim C1 witness: the §8 scenario — in a fresh scope, "Intro" gets
`intro.html`, then "Intro " (same sanitized base) gets a distinct filename
(concretely `intro_1.html`), by `claim_C1` applied at these inputs. -/
theorem claim_C1_witness :
    (provide_unique_filename (FolderManager.init "sp") "Intro" false (some "html")).1
        = "intro.html"
      ∧ (provide_unique_filename
          (runAllocs (provide_unique_filename (FolderManager.init "sp") "Intro" false
            (some "html")).2 [])
          "Intro " false (some "html")).1 = "intro_1.html"
      ∧ (provide_unique_filename
          (runAllocs (provide_unique_filename (FolderManager.init "sp") "Intro" false
            (some "html")).2 [])
          "Intro " false (some "html")).1
        ≠ (provide_unique_filename (FolderManager.init "sp") "Intro" false (some "html")).1 :=
  ⟨by decide, by decide,
    claim_C1.2 (FolderManager.init "sp") "Intro" false (some "html") [] "Intro " false
      (some "html") (by decide) (by decide) (by decide)⟩

/-- Claim C1 counterexample: uniqueness fails as soon as a title's sanitized
form equals an already-suffixed allocation.  After allocating title "x"
(→ `x.html`) and title "x.html" (base "x" collides → `x_1.html`), allocating
the distinct title "x_1" also yields `x_1.html`: two distinct titles with
the same assigned filename in one scope. -/
theorem claim_C1_counterexample :
    ("x.html" : String) ≠ "x_1"
      ∧ (provide_unique_filename
          (provide_unique_filename (FolderManager.init "sp") "x" false (some "html")).2
          "x.html" false none).1
        = (provide_unique_filename
            (provide_unique_filename
              (provide_unique_filename (FolderManager.init "sp") "x" false (some "html")).2
              "x.html" false none).2
            "x_1" false (some "html")).1
      ∧ (provide_unique_filename
          (provide_unique_filename (FolderManager.init "sp") "x" false (some "html")).2
          "x.html" false none).1 = "x_1.html" := by
  refine ⟨by decide, by decide, by decide⟩

/-- Claim C10.  Memoization wins over the flags: once a title is bound in the
scope, any later call with that title returns the first-assigned filename
and leaves the scope untouched, whatever `is_folder` / `explicit_file_extension`
arguments the later call passes. -/
theorem claim_C10 :
    (∀ (fm : FolderManager) (t f : String) (isf' : Bool) (ext' : Option String),
      findVal fm.title_to_filename t = some f →
      provide_unique_filename fm t isf' ext' = (f, fm))
  ∧ (∀ (fm : FolderManager) (t : String) (isf : Bool) (ext : Option String)
        (isf' : Bool) (ext' : Option String),
      provide_unique_filename (provide_unique_filename fm t isf ext).2 t isf' ext'
        = ((provide_unique_filename fm t isf ext).1,
           (provide_unique_filename fm t isf ext).2)) := by
  constructor
  · intro fm t f isf' ext' h
    exact provide_memo fm t f isf' ext' h
  · intro fm t isf ext isf' ext'
    exact provide_memo _ t _ isf' ext' (provide_result_mem fm t isf ext)

/-- Claim C10 witness: after `allocate("Page", explicit html)` (→ `page.html`),
a later `allocate("Page", is_folder := true)` still returns `page.html`
rather than an extension-free folder name, by `claim_C10` applied here. -/
theorem claim_C10_witness :
    (provide_unique_filename
        (provide_unique_filename (FolderManager.init "f") "Page" false (some "html")).2
        "Page" true none).1 = "page.html" := by
  have h := claim_C10.2 (FolderManager.init "f") "Page" false (some "html") true none
  rw [h]
  decide

/-- Claim C5.  `derive_downloaded_file_name`: the two spec examples hold
exactly; a path containing `/download/temp/` maps to `temp_<basename>` (this
branch wins over the `/download/` branch); otherwise a path containing
`/download/` maps to `<pageId>_<downloadType>_<basename>` from the 3rd, 2nd
and last `'/'`-separated parts (the segment-count hypothesis is where the
source's `parts[3]` indexing is defined); otherwise a document-conversion
thumbnail path maps to `generated_preview_<fileId>.jpg`; any other URL maps
to `none`. -/
theorem claim_C5 :
    derive_downloaded_file_name "/download/attachments/524291/peak.jpeg?version=1"
        = some "524291_attachments_peak.jpeg"
  ∧ derive_downloaded_file_name "/download/temp/plantuml123.png?contentType=image/png"
        = some "temp_plantuml123.png"
  ∧ (∀ url : String,
      listContainsSub (urlparse_path_chars url.data) "/download/temp/".data = true →
      derive_downloaded_file_name url
        = some ("temp_" ++ String.mk (lastSegment '/' (urlparse_path_chars url.data))))
  ∧ (∀ url : String,
      listContainsSub (urlparse_path_chars url.data) "/download/temp/".data = false →
      listContainsSub (urlparse_path_chars url.data) "/download/".data = true →
      4 ≤ (pySplitChar '/' (urlparse_path_chars url.data)).length →
      derive_downloaded_file_name url
        = some (String.mk ((pySplitChar '/' (urlparse_path_chars url.data)).getD 3 [])
            ++ "_" ++ String.mk ((pySplitChar '/' (urlparse_path_chars url.data)).getD 2 [])
            ++ "_" ++ String.mk ((pySplitChar '/' (urlparse_path_chars url.data)).getLastD [])))
  ∧ (∀ url : String,
      listContainsSub (urlparse_path_chars url.data) "/download/temp/".data = false →
      listContainsSub (urlparse_path_chars url.data) "/download/".data = false →
      listContainsSub (urlparse_path_chars url.data) documentConversionPat.data = true →
      derive_downloaded_file_name url
        = some ("generated_preview_"
            ++ String.mk
              (((pySplitOn (urlparse_path_chars url.data) documentConversionPat.data).getD 1 []).take
                (((pySplitOn (urlparse_path_chars url.data) documentConversionPat.data).getD 1 []).length - 2))
            ++ ".jpg"))
  ∧ (∀ url : String,
      listContainsSub (urlparse_path_chars url.data) "/download/temp/".data = false →
      listContainsSub (urlparse_path_chars url.data) "/download/".data = false →
      listContainsSub (urlparse_path_chars url.data) documentConversionPat.data = false →
      derive_downloaded_file_name url = none) := by
  refine ⟨by decide, by decide, ?_, ?_, ?_, ?_⟩
  · intro url h
    simp [derive_downloaded_file_name, h]
  · intro url h1 h2 _
    simp [derive_downloaded_file_name, h1, h2]
  · intro url h1 h2 h3
    simp [derive_downloaded_file_name, h1, h2, h3]
  · intro url h1 h2 h3
    simp [derive_downloaded_file_name, h1, h2, h3]

/-- Claim C5 witness: the general `/download/temp/` and `/download/` clauses
of `claim_C5` applied at the spec's concrete URLs. -/
theorem claim_C5_witness :
    derive_downloaded_file_name "/download/temp/plantuml123.png?contentType=image/png"
        = some ("temp_" ++ String.mk (lastSegment '/'
            (urlparse_path_chars "/download/temp/plantuml123.png?contentType=image/png".data)))
  ∧ derive_downloaded_file_name "/download/attachments/524291/peak.jpeg?version=1"
        = some (String.mk ((pySplitChar '/' (urlparse_path_chars
              "/download/attachments/524291/peak.jpeg?version=1".data)).getD 3 [])
            ++ "_" ++ String.mk ((pySplitChar '/' (urlparse_path_chars
              "/download/attachments/524291/peak.jpeg?version=1".data)).getD 2 [])
            ++ "_" ++ String.mk ((pySplitChar '/' (urlparse_path_chars
              "/download/attachments/524291/peak.jpeg?version=1".data)).getLastD [])) :=
  ⟨claim_C5.2.2.1 "/download/temp/plantuml123.png?contentType=image/png" (by decide),
   claim_C5.2.2.2.1 "/download/attachments/524291/peak.jpeg?version=1"
     (by decide) (by decide) (by decide)⟩

/-- Claim C8.  `download_file`: when the destination path already exists the
returned path is the existing one and the entire state — filesystem (content
stamps), event log, everything — is unchanged, with no network request
recorded; when the path does not exist, a network request is attempted. -/
theorem claim_C8 :
    (∀ (remote : Remote) (clean_url download_folder name : String) (eo : Bool)
        (st : DumpState) (d : Nat),
      findVal st.files (download_folder ++ "/" ++ name) = some d →
      download_file remote clean_url download_folder name eo st
        = (download_folder ++ "/" ++ name, st))
  ∧ (∀ (remote : Remote) (clean_url download_folder name : String) (eo : Bool)
        (st : DumpState),
      findVal st.files (download_folder ++ "/" ++ name) = none →
      Event.netDownload (CONFLUENCE_BASE_URL ++ clean_url)
        ∈ (download_file remote clean_url download_folder name eo st).2.events) := by
  constructor
  · intro remote cu df n eo st d h
    simp [download_file, h]
  · intro remote cu df n eo st h
    cases hr : remote.downloadData (CONFLUENCE_BASE_URL ++ cu) with
    | some data => simp [download_file, h, hr]
    | none => simp [download_file, h, hr]

/-- Claim C8 witness: with `attachments/pic.png` already on disk,
`download_file` returns that path and leaves the state untouched; on an
empty filesystem it records the network request — both by `claim_C8`. -/
theorem claim_C8_witness :
    download_file { tinyResolve := fun _ => none, downloadData := fun _ => some 3 }
        "/download/pic.png" "attachments" "pic.png" true
        { page_fm := FolderManager.init "sp", download_fm := FolderManager.init "attachments",
          db := [], tiny_cache := [], files := [("attachments/pic.png", 9)], events := [] }
      = ("attachments/pic.png",
         { page_fm := FolderManager.init "sp", download_fm := FolderManager.init "attachments",
           db := [], tiny_cache := [], files := [("attachments/pic.png", 9)], events := [] })
  ∧ Event.netDownload (CONFLUENCE_BASE_URL ++ "/download/pic.png")
      ∈ (download_file { tinyResolve := fun _ => none, downloadData := fun _ => some 3 }
          "/download/pic.png" "attachments" "pic.png" true
          { page_fm := FolderManager.init "sp", download_fm := FolderManager.init "attachments",
            db := [], tiny_cache := [], files := [], events := [] }).2.events :=
  ⟨claim_C8.1 _ "/download/pic.png" "attachments" "pic.png" true _ 9 (by decide),
   claim_C8.2 _ "/download/pic.png" "attachments" "pic.png" true _ (by decide)⟩

/-- Claim C9 (amended).  The tiny-URL cache: (i) every entry present after a
call was already present or records a successful *nonzero* resolution;
(ii) a cached hash is answered from the cache, whatever the current remote
behaviour, with no cache change; (iii) a resolution yielding no page id
returns `none` without caching, so the next call re-resolves with the
then-current remote behaviour; (iv) a resolution yielding a nonzero id is
cached and every later call returns it from the cache.  (The original
claim's "once resolved, always answered from the cache" fails for a
resolution yielding id 0, which Python's truthiness test does not cache —
see the counterexample.) -/
theorem claim_C9 :
    (∀ (resolve : String → Option Nat) (cache : List (String × Nat)) (url h' : String)
        (n' : Nat),
      findVal (get_page_id_by_tinyurl resolve cache url).2 h' = some n' →
      findVal cache h' = some n' ∨ (resolve h' = some n' ∧ n' ≠ 0))
  ∧ (∀ (resolve : String → Option Nat) (cache : List (String × Nat)) (url : String)
        (n : Nat),
      findVal cache (String.mk (lastSegment '/' url.data)) = some n →
      get_page_id_by_tinyurl resolve cache url = (some n, cache))
  ∧ (∀ (resolve resolve' : String → Option Nat) (cache : List (String × Nat)) (url : String),
      findVal cache (String.mk (lastSegment '/' url.data)) = none →
      resolve (String.mk (lastSegment '/' url.data)) = none →
      get_page_id_by_tinyurl resolve cache url = (none, cache)
        ∧ get_page_id_by_tinyurl resolve' (get_page_id_by_tinyurl resolve cache url).2 url
            = get_page_id_by_tinyurl resolve' cache url)
  ∧ (∀ (resolve resolve' : String → Option Nat) (cache : List (String × Nat)) (url : String)
        (n : Nat),
      findVal cache (String.mk (lastSegment '/' url.data)) = none →
      resolve (String.mk (lastSegment '/' url.data)) = some n →
      n ≠ 0 →
      get_page_id_by_tinyurl resolve cache url
          = (some n, setVal cache (String.mk (lastSegment '/' url.data)) n)
        ∧ get_page_id_by_tinyurl resolve'
            (setVal cache (String.mk (lastSegment '/' url.data)) n) url
            = (some n, setVal cache (String.mk (lastSegment '/' url.data)) n)) := by
  refine ⟨?_, ?_, ?_, ?_⟩
  · intro resolve cache url h' n' h
    cases hc : findVal cache (String.mk (lastSegment '/' url.data)) with
    | some v =>
        left
        simpa [get_page_id_by_tinyurl, hc] using h
    | none =>
        cases hr : resolve (String.mk (lastSegment '/' url.data)) with
        | some n =>
            by_cases hn : n = 0
            · left; simpa [get_page_id_by_tinyurl, hc, hr, hn] using h
            · rw [show (get_page_id_by_tinyurl resolve cache url).2
                  = setVal cache (String.mk (lastSegment '/' url.data)) n from by
                    simp [get_page_id_by_tinyurl, hc, hr, hn]] at h
              by_cases hk : String.mk (lastSegment '/' url.data) = h'
              · subst hk
                rw [findVal_setVal_self] at h
                right
                exact ⟨by rw [hr, h], by injection h with h'; omega⟩
              · left
                rwa [findVal_setVal_other _ _ _ _ hk] at h
        | none =>
            left
            simpa [get_page_id_by_tinyurl, hc, hr] using h
  · intro resolve cache url n h
    simp [get_page_id_by_tinyurl, h]
  · intro resolve resolve' cache url hc hr
    refine ⟨by simp [get_page_id_by_tinyurl, hc, hr], ?_⟩
    rw [show (get_page_id_by_tinyurl resolve cache url).2 = cache from by
      simp [get_page_id_by_tinyurl, hc, hr]]
  · intro resolve resolve' cache url n hc hr hn
    refine ⟨by simp [get_page_id_by_tinyurl, hc, hr, hn], ?_⟩
    simp [get_page_id_by_tinyurl, findVal_setVal_self]

/-- Claim C9 witness: a failed resolution is not cached (and is re-resolved
next time), a successful nonzero one is cached and then served from the
cache — `claim_C9` applied at concrete inputs. -/
theorem claim_C9_witness :
    (get_page_id_by_tinyurl (fun _ => none) [] "/x/KuwCBw" = (none, [])
      ∧ get_page_id_by_tinyurl (fun _ => some 117632042)
          (get_page_id_by_tinyurl (fun _ => none) [] "/x/KuwCBw").2 "/x/KuwCBw"
        = get_page_id_by_tinyurl (fun _ => some 117632042) [] "/x/KuwCBw")
  ∧ (get_page_id_by_tinyurl (fun _ => some 117632042) [] "/x/KuwCBw"
        = (some 117632042, [("KuwCBw", 117632042)])
      ∧ get_page_id_by_tinyurl (fun _ => none) [("KuwCBw", 117632042)] "/x/KuwCBw"
        = (some 117632042, [("KuwCBw", 117632042)])) :=
  ⟨claim_C9.2.2.1 (fun _ => none) (fun _ => some 117632042) [] "/x/KuwCBw"
     (by decide) (by decide),
   claim_C9.2.2.2 (fun _ => some 117632042) (fun _ => none) [] "/x/KuwCBw" 117632042
     (by decide) (by decide) (by decide)⟩

/-- Claim C9 counterexample: a tiny URL that resolves to page id 0 is
"resolved" (the call returns `some 0`, not `none`) yet is not cached, so a
later call is not answered with the first result: with the remote now
resolving to 5, the second call returns `some 5 ≠ some 0`. -/
theorem claim_C9_counterexample :
    (get_page_id_by_tinyurl (fun h => if h = "AB" then some 0 else none) [] "/x/AB").1
        = some 0
  ∧ (get_page_id_by_tinyurl (fun h => if h = "AB" then some 0 else none) [] "/x/AB").2 = []
  ∧ (get_page_id_by_tinyurl (fun _ => some 5)
      (get_page_id_by_tinyurl (fun h => if h = "AB" then some 0 else none) [] "/x/AB").2
      "/x/AB").1 = some 5
  ∧ (some 5 : Option Nat) ≠ some 0 := by
  refine ⟨by decide, by decide, by decide, by decide⟩

/-! ## State-preservation lemmas for the fetch theorems -/
theorem provide_folder (fm : FolderManager) (t : String) (isf : Bool) (ext : Option String) :
    (provide_unique_filename fm t isf ext).2.folder = fm.folder := by
  cases h : findVal fm.title_to_filename t with
  | some f => simp [provide_unique_filename, h]
  | none => simp [provide_unique_filename, h]

theorem download_file_page_fm (remote : Remote) (cu df n : String) (eo : Bool)
    (st : DumpState) : (download_file remote cu df n eo st).2.page_fm = st.page_fm := by
  cases h : findVal st.files (df ++ "/" ++ n) with
  | some d => simp [download_file, h]
  | none =>
      cases hr : remote.downloadData (CONFLUENCE_BASE_URL ++ cu) with
      | some data => simp [download_file, h, hr]
      | none => simp [download_file, h, hr]

theorem download_attachment_page_fm (remote : Remote) (url : String)
    (aid : Option String) (st : DumpState) :
    (download_attachment remote url aid st).2.page_fm = st.page_fm := by
  simp only [download_attachment]
  repeat' split
  all_goals simp [download_file_page_fm]

theorem download_attachments_page_fm (remote : Remote) :
    ∀ (atts : List (String × String)) (st : DumpState),
      (download_attachments_of_page remote atts st).2.page_fm = st.page_fm := by
  intro atts
  induction atts with
  | nil => intro st; simp [download_attachments_of_page]
  | cons a rest ih =>
      intro st
      obtain ⟨url, aid⟩ := a
      simp [download_attachments_of_page, ih, download_attachment_page_fm]

theorem download_temp_page_fm (remote : Remote) :
    ∀ (urls : List String) (st : DumpState),
      (download_temp_attachments_of_page remote urls st).2.page_fm = st.page_fm := by
  intro urls
  induction urls with
  | nil => intro st; simp [download_temp_attachments_of_page]
  | cons u rest ih =>
      intro st
      simp [download_temp_attachments_of_page, ih, download_attachment_page_fm]

theorem rule1_step_folder (e : Elem) (fm : FolderManager) :
    (rule1_step e fm).2.folder = fm.folder := by
  cases h : e.href with
  | none => simp [rule1_step, h]
  | some href =>
      by_cases hc : e.tag = "a" && strContains href "/display/" && noClass e
      · simp [rule1_step, h, hc, provide_folder]
      · simp [rule1_step, h, hc]

theorem mapState_rule1_folder :
    ∀ (doc : List Elem) (fm : FolderManager),
      (mapStateAux rule1_step doc fm).2.folder = fm.folder := by
  intro doc
  induction doc with
  | nil => intro fm; simp [mapStateAux]
  | cons e rest ih =>
      intro fm
      simp [mapStateAux, ih, rule1_step_folder]

theorem handle_folder (resolve : String → Option Nat) (doc : List Elem)
    (fm : FolderManager) (cache : List (String × Nat)) :
    (handle_html_references resolve doc fm cache).page_fm.folder = fm.folder := by
  simp [handle_html_references, mapState_rule1_folder]

theorem append_child_page_foldl (rs : List (Option PageInfo)) :
    ∀ acc, rs.foldl append_child_page acc = acc ++ rs.filterMap id := by
  induction rs with
  | nil => intro acc; simp
  | cons r rest ih =>
      intro acc
      cases r with
      | none => simp [append_child_page, ih]
      | some p => simp [append_child_page, ih]

theorem appendChildren_eq (rs : List (Option PageInfo)) :
    appendChildren rs = rs.filterMap id := by
  simp [appendChildren, append_child_page_foldl]

theorem render_page_writes (remote : Remote) (p : RemotePage) (file_name : String)
    (st : DumpState) :
    ∃ content, Event.fileWrite (st.page_fm.folder ++ "/" ++ file_name) content
      ∈ (render_page remote p file_name st).2.events := by
  have h1 := download_attachments_page_fm remote p.attachments st
  have h2 := download_temp_page_fm remote (temp_image_urls p.htmlTree)
    (download_attachments_of_page remote p.attachments st).2
  cases ht : p.htmlTree with
  | none =>
      rw [ht] at h2
      simp only [render_page, ht, write_html_2_file, generate_id_reverse_file]
      rw [h2, h1]
      exact ⟨_, List.mem_cons_of_mem _ (List.mem_cons_of_mem _ (List.mem_cons_self _ _))⟩
  | some doc =>
      rw [ht] at h2
      simp only [render_page, ht, write_html_2_file, generate_id_reverse_file]
      rw [handle_folder, h2, h1]
      exact ⟨_, List.mem_cons_of_mem _ (List.mem_cons_of_mem _ (List.mem_cons_self _ _))⟩

/-- Claim C2.  Incremental skip in `fetch_page_recursively`.  Part 1: when a
cache entry exists whose `mtime` is not older than the fetched page's and the
force flag is off, the page contributes nothing of its own to the state — no
page file, no id-forward stub, no attachment downloads, no cache upsert (the
whole run equals allocating the filename and recursing into the children
from the otherwise-unchanged state) — yet the filename is still allocated
(recorded in the scope), the page still appears as a tree node with its
children, and its children are still recursed into.  Part 2 (converse): when
no entry exists, or the stored `mtime` is strictly older, or the force flag
is set (`is_new_page`), the page is rendered via `render_page`, which writes
the page file `<folder>/<allocated name>`. -/
theorem claim_C2 :
    (∀ (remote : Remote) (p : RemotePage) (kids : RForest) (st : DumpState)
        (old : PageTab),
      p.fails = false →
      findVal st.db p.tab.page_id = some old →
      ¬ old.mtime < p.tab.mtime →
      fetch_page_recursively remote (RTree.node p kids) st false
          = (let fp := provide_unique_filename st.page_fm p.tab.title false (some "html")
             let c := fetch_child_pages remote kids { st with page_fm := fp.2 } false
             (some (PageInfo.mk (some p.tab) p.body fp.1 (c.1.filterMap id) []), c.2))
        ∧ findVal (provide_unique_filename st.page_fm p.tab.title false
              (some "html")).2.title_to_filename p.tab.title
            = some (provide_unique_filename st.page_fm p.tab.title false (some "html")).1)
  ∧ (∀ (remote : Remote) (p : RemotePage) (kids : RForest) (st : DumpState)
        (force : Bool),
      p.fails = false →
      is_new_page (findVal st.db p.tab.page_id) p.tab force = true →
      fetch_page_recursively remote (RTree.node p kids) st force
          = (let fp := provide_unique_filename st.page_fm p.tab.title false (some "html")
             let r := render_page remote p fp.1 { st with page_fm := fp.2 }
             let c := fetch_child_pages remote kids r.2 force
             (some (PageInfo.mk (some p.tab) p.body fp.1 (c.1.filterMap id) r.1), c.2))
        ∧ ∃ content, Event.fileWrite
            (st.page_fm.folder ++ "/"
              ++ (provide_unique_filename st.page_fm p.tab.title false (some "html")).1)
            content
            ∈ (render_page remote p
                (provide_unique_filename st.page_fm p.tab.title false (some "html")).1
                { st with page_fm :=
                    (provide_unique_filename st.page_fm p.tab.title false (some "html")).2
                }).2.events) := by
  constructor
  · intro remote p kids st old hfail hdb hmt
    refine ⟨?_, provide_result_mem st.page_fm p.tab.title false (some "html")⟩
    have hnew : is_new_page (get_page_by_id st.db p.tab.page_id) p.tab false = false := by
      simp [is_new_page, get_page_by_id, hdb, hmt]
    simp [fetch_page_recursively, hfail, hnew, appendChildren_eq]
  · intro remote p kids st force hfail hnew
    constructor
    · have hnew' : is_new_page (get_page_by_id st.db p.tab.page_id) p.tab force = true := by
        simpa [get_page_by_id] using hnew
      simp [fetch_page_recursively, hfail, hnew', appendChildren_eq]
    · have hw := render_page_writes remote p
        (provide_unique_filename st.page_fm p.tab.title false (some "html")).1
        { st with page_fm :=
            (provide_unique_filename st.page_fm p.tab.title false (some "html")).2 }
      simpa [provide_folder] using hw

/-- Claim C2 witness: `claim_C2` at a concrete page.  With a cache entry of
equal `mtime` and no force flag, the run on a leaf page equals a pure
filename allocation (no events, no writes, node still present); with the
force flag set, the same page is rendered and the page file write is
recorded. -/
theorem claim_C2_witness :
    (fetch_page_recursively
        { tinyResolve := fun _ => none, downloadData := fun _ => some 7 }
        (RTree.node
          { tab := { page_id := 11, title := "Home", hash := "h", space := "SP", mtime := 5 },
            body := "<p>", htmlTree := none, attachments := [], fails := false }
          RForest.nil)
        { page_fm := FolderManager.init "export/SP",
          download_fm := FolderManager.init "export/SP/attachments",
          db := [(11, { page_id := 11, title := "Home", hash := "h", space := "SP", mtime := 5 })],
          tiny_cache := [], files := [], events := [] } false
        = (let fp := provide_unique_filename
              (FolderManager.init "export/SP") "Home" false (some "html")
           let c := fetch_child_pages
              { tinyResolve := fun _ => none, downloadData := fun _ => some 7 }
              RForest.nil
              { page_fm := fp.2,
                download_fm := FolderManager.init "export/SP/attachments",
                db := [(11, { page_id := 11, title := "Home", hash := "h", space := "SP",
                              mtime := 5 })],
                tiny_cache := [], files := [], events := [] } false
           (some (PageInfo.mk
              (some { page_id := 11, title := "Home", hash := "h", space := "SP", mtime := 5 })
              "<p>" fp.1 (c.1.filterMap id) []), c.2)))
  ∧ (∃ content, Event.fileWrite ("export/SP/" ++ "home.html") content
      ∈ (render_page
          { tinyResolve := fun _ => none, downloadData := fun _ => some 7 }
          { tab := { page_id := 11, title := "Home", hash := "h", space := "SP", mtime := 5 },
            body := "<p>", htmlTree := none, attachments := [], fails := false }
          "home.html"
          { page_fm := { folder := "export/SP",
                         title_to_filename := [("Home", "home.html")],
                         duplicate_filenames := [("home", 0)] },
            download_fm := FolderManager.init "export/SP/attachments",
            db := [(11, { page_id := 11, title := "Home", hash := "h", space := "SP",
                          mtime := 5 })],
            tiny_cache := [], files := [], events := [] }).2.events) := by
  constructor
  · exact (claim_C2.1
      { tinyResolve := fun _ => none, downloadData := fun _ => some 7 }
      { tab := { page_id := 11, title := "Home", hash := "h", space := "SP", mtime := 5 },
        body := "<p>", htmlTree := none, attachments := [], fails := false }
      RForest.nil
      { page_fm := FolderManager.init "export/SP",
        download_fm := FolderManager.init "export/SP/attachments",
        db := [(11, { page_id := 11, title := "Home", hash := "h", space := "SP", mtime := 5 })],
        tiny_cache := [], files := [], events := [] }
      { page_id := 11, title := "Home", hash := "h", space := "SP", mtime := 5 }
      (by decide) (by decide) (by decide)).1
  · have h := (claim_C2.2
      { tinyResolve := fun _ => none, downloadData := fun _ => some 7 }
      { tab := { page_id := 11, title := "Home", hash := "h", space := "SP", mtime := 5 },
        body := "<p>", htmlTree := none, attachments := [], fails := false }
      RForest.nil
      { page_fm := FolderManager.init "export/SP",
        download_fm := FolderManager.init "export/SP/attachments",
        db := [(11, { page_id := 11, title := "Home", hash := "h", space := "SP", mtime := 5 })],
        tiny_cache := [], files := [], events := [] }
      true (by decide) (by decide)).2
    exact h

/-- Claim C7.  Page-level failure containment: (1) a page whose fetch raises
`ConfluenceException` makes exactly its own call return `None` with only an
error report — its whole subtree is pruned, nothing else of the state is
touched; (2) a successfully fetched parent's node carries a children list
equal to the per-child results with the `None`s dropped (the list never
contains a `None` entry); (3) a failing child does not stop the loop: the
remaining siblings are still processed from the state after the failure. -/
theorem claim_C7 :
    (∀ (remote : Remote) (p : RemotePage) (kids : RForest) (st : DumpState) (force : Bool),
      p.fails = true →
      fetch_page_recursively remote (RTree.node p kids) st force
        = (none, { st with events := Event.errorOut "page" :: st.events }))
  ∧ (∀ (remote : Remote) (p : RemotePage) (kids : RForest) (st : DumpState) (force : Bool),
      p.fails = false →
      (fetch_page_recursively remote (RTree.node p kids) st force).1
        = (let fp := provide_unique_filename st.page_fm p.tab.title false (some "html")
           let r := if is_new_page (get_page_by_id st.db p.tab.page_id) p.tab force
                    then render_page remote p fp.1 { st with page_fm := fp.2 }
                    else ([], { st with page_fm := fp.2 })
           let c := fetch_child_pages remote kids r.2 force
           some (PageInfo.mk (some p.tab) p.body fp.1 (c.1.filterMap id) r.1)))
  ∧ (∀ (remote : Remote) (pbad : RemotePage) (kidsbad rest : RForest) (st : DumpState)
        (force : Bool),
      pbad.fails = true →
      fetch_child_pages remote (RForest.cons (RTree.node pbad kidsbad) rest) st force
        = (none :: (fetch_child_pages remote rest
              { st with events := Event.errorOut "page" :: st.events } force).1,
           (fetch_child_pages remote rest
              { st with events := Event.errorOut "page" :: st.events } force).2)) := by
  refine ⟨?_, ?_, ?_⟩
  · intro remote p kids st force h
    simp [fetch_page_recursively, h]
  · intro remote p kids st force h
    simp [fetch_page_recursively, h, appendChildren_eq]
  · intro remote pbad kidsbad rest st force h
    simp [fetch_child_pages, fetch_page_recursively, h]

/-- Claim C7 witness: `claim_C7` at a concrete two-child family — the first
child fails (returning `none`, with only an error event), the second is
still processed, and the parent's children list is the results with the
`none` dropped. -/
theorem claim_C7_witness :
    fetch_page_recursively
        { tinyResolve := fun _ => none, downloadData := fun _ => some 7 }
        (RTree.node
          { tab := { page_id := 1, title := "Bad", hash := "b", space := "SP", mtime := 1 },
            body := "", htmlTree := none, attachments := [], fails := true }
          RForest.nil)
        { page_fm := FolderManager.init "export/SP",
          download_fm := FolderManager.init "export/SP/attachments",
          db := [], tiny_cache := [], files := [], events := [] } false
      = (none,
         { page_fm := FolderManager.init "export/SP",
           download_fm := FolderManager.init "export/SP/attachments",
           db := [], tiny_cache := [], files := [],
           events := [Event.errorOut "page"] })
  ∧ fetch_child_pages
        { tinyResolve := fun _ => none, downloadData := fun _ => some 7 }
        (RForest.cons
          (RTree.node
            { tab := { page_id := 1, title := "Bad", hash := "b", space := "SP", mtime := 1 },
              body := "", htmlTree := none, attachments := [], fails := true }
            RForest.nil)
          RForest.nil)
        { page_fm := FolderManager.init "export/SP",
          download_fm := FolderManager.init "export/SP/attachments",
          db := [], tiny_cache := [], files := [], events := [] } false
      = (none :: (fetch_child_pages
            { tinyResolve := fun _ => none, downloadData := fun _ => some 7 }
            RForest.nil
            { page_fm := FolderManager.init "export/SP",
              download_fm := FolderManager.init "export/SP/attachments",
              db := [], tiny_cache := [], files := [],
              events := [Event.errorOut "page"] } false).1,
         (fetch_child_pages
            { tinyResolve := fun _ => none, downloadData := fun _ => some 7 }
            RForest.nil
            { page_fm := FolderManager.init "export/SP",
              download_fm := FolderManager.init "export/SP/attachments",
              db := [], tiny_cache := [], files := [],
              events := [Event.errorOut "page"] } false).2) :=
  ⟨claim_C7.1 _
    { tab := { page_id := 1, title := "Bad", hash := "b", space := "SP", mtime := 1 },
      body := "", htmlTree := none, attachments := [], fails := true }
    RForest.nil _ false (by decide),
   claim_C7.2.2 _
    { tab := { page_id := 1, title := "Bad", hash := "b", space := "SP", mtime := 1 },
      body := "", htmlTree := none, attachments := [], fails := true }
    RForest.nil RForest.nil _ false (by decide)⟩

theorem encode_url_data (s : String) : (encode_url s).data = listEncode s.data := rfl

theorem char_ofNat_toNat_eq {n : Nat} (h : n < 55296) : (Char.ofNat n).toNat = n := by
  have hv : n.isValidChar := Or.inl h
  simp only [Char.ofNat, hv, dif_pos, Char.ofNatAux, Char.toNat]
  rfl

theorem char_toLower_lt_256 {c : Char} (h : c.toNat < 256) :
    (Char.toLower c).toNat < 256 := by
  unfold Char.toLower
  by_cases hc : c.toNat ≥ 65 ∧ c.toNat ≤ 90
  · rw [if_pos hc, char_ofNat_toNat_eq (by omega)]
    omega
  · rw [if_neg hc]
    exact h

theorem char_toLower_ne_slash {c : Char} (h : Char.toLower c = '/') : c = '/' := by
  unfold Char.toLower at h
  by_cases hc : c.toNat ≥ 65 ∧ c.toNat ≤ 90
  · rw [if_pos hc] at h
    have h2 : (Char.ofNat (c.toNat + 32)).toNat = c.toNat + 32 :=
      char_ofNat_toNat_eq (by omega)
    rw [h] at h2
    have h3 : ('/').toNat = 47 := rfl
    omega
  · rwa [if_neg hc] at h

theorem listIsPrefixOf_subset :
    ∀ (p l : List Char), listIsPrefixOf p l = true → ∀ c ∈ p, c ∈ l := by
  intro p
  induction p with
  | nil => intro l _ c hc; cases hc
  | cons a as ih =>
      intro l h c hc
      cases l with
      | nil => cases h
      | cons b bs =>
          simp only [listIsPrefixOf, Bool.and_eq_true, decide_eq_true_eq] at h
          rcases List.mem_cons.1 hc with h1 | h1
          · subst h1; rw [h.1]; exact List.mem_cons_self _ _
          · exact List.mem_cons_of_mem _ (ih bs h.2 c h1)

theorem listContainsSub_subset :
    ∀ (l p : List Char), listContainsSub l p = true → ∀ c ∈ p, c ∈ l := by
  intro l
  induction l with
  | nil =>
      intro p h c hc
      simp only [listContainsSub, List.isEmpty_iff] at h
      subst h; cases hc
  | cons a t ih =>
      intro p h c hc
      simp only [listContainsSub, Bool.or_eq_true] at h
      rcases h with h | h
      · exact listIsPrefixOf_subset p (a :: t) h c hc
      · exact List.mem_cons_of_mem _ (ih p h c hc)

theorem listContainsSub_false_of_mem {l p : List Char} {c : Char}
    (hc : c ∈ p) (hl : c ∉ l) : listContainsSub l p = false := by
  cases h : listContainsSub l p with
  | false => rfl
  | true => exact absurd (listContainsSub_subset l p h c hc) hl

theorem listIsPrefixOf_append_self :
    ∀ (p s : List Char), listIsPrefixOf p (p ++ s) = true := by
  intro p s
  induction p with
  | nil => rfl
  | cons a as ih => simp [listIsPrefixOf, ih]

theorem listContainsSub_of_starts :
    ∀ {p l : List Char}, listIsPrefixOf p l = true → listContainsSub l p = true := by
  intro p l h
  cases l with
  | nil =>
      cases p with
      | nil => rfl
      | cons a as => cases h
  | cons b bs => simp [listContainsSub, h]

theorem listContainsSub_append_self (p s : List Char) :
    listContainsSub (p ++ s) p = true :=
  listContainsSub_of_starts (listIsPrefixOf_append_self p s)

theorem afterFirstAux_none_iff (pat : List Char) :
    ∀ (fuel : Nat) (l : List Char), l.length < fuel →
      (afterFirstAux pat fuel l = none ↔ listContainsSub l pat = false) := by
  intro fuel
  induction fuel with
  | zero => intro l h; omega
  | succ f ih =>
      intro l h
      cases l with
      | nil =>
          cases pat with
          | nil => simp [afterFirstAux, listContainsSub]
          | cons a as => simp [afterFirstAux, listContainsSub]
      | cons c rest =>
          cases hp : listIsPrefixOf pat (c :: rest) with
          | true => simp [afterFirstAux, hp, listContainsSub]
          | false =>
              have hlen : rest.length < f := by
                simp only [List.length_cons] at h; omega
              simp only [afterFirstAux, hp, Bool.false_eq_true, if_false,
                listContainsSub, Bool.false_or]
              exact ih rest hlen

theorem takeUntilChar_eq_self {c : Char} {l : List Char} (h : c ∉ l) :
    takeUntilChar c l = l := by
  unfold takeUntilChar
  rw [List.takeWhile_eq_self_iff]
  intro x hx
  simp only [decide_eq_true_eq]
  intro he
  exact h (he ▸ hx)

theorem splitCharAux_no_sep (sep : Char) :
    ∀ (l cur : List Char), (∀ c ∈ l, c ≠ sep) →
      splitCharAux sep l cur = [cur.reverse ++ l] := by
  intro l
  induction l with
  | nil => intro cur _; simp [splitCharAux]
  | cons c rest ih =>
      intro cur h
      have hc : ¬ c = sep := h c (List.mem_cons_self _ _)
      simp only [splitCharAux, hc, if_false]
      rw [ih (c :: cur) fun d hd => h d (List.mem_cons_of_mem _ hd)]
      simp

theorem splitCharAux_lastSeg (sep : Char) (s : List Char)
    (hs : ∀ c ∈ s, c ≠ sep) :
    ∀ (l cur d : List Char),
      (splitCharAux sep (l ++ sep :: s) cur).getLastD d = s := by
  intro l
  induction l with
  | nil =>
      intro cur d
      simp only [List.nil_append, splitCharAux, if_pos rfl]
      rw [splitCharAux_no_sep sep s [] hs]
      simp
  | cons c rest ih =>
      intro cur d
      by_cases hc : c = sep
      · subst hc
        rw [List.cons_append,
          show splitCharAux c (c :: (rest ++ c :: s)) cur
              = cur.reverse :: splitCharAux c (rest ++ c :: s) [] from by
            simp [splitCharAux],
          List.getLastD_cons]
        exact ih [] _
      · simp only [List.cons_append, splitCharAux, hc, if_false]
        exact ih (c :: cur) d

theorem lastSegment_append (sep : Char) (l s : List Char)
    (hs : ∀ c ∈ s, c ≠ sep) : lastSegment sep (l ++ sep :: s) = s := by
  unfold lastSegment pySplitChar
  exact splitCharAux_lastSeg sep s hs l [] []

theorem splitOnAux_no_occurrence (sep : List Char) :
    ∀ (fuel : Nat) (l cur : List Char), l.length < fuel →
      listContainsSub l sep = false → splitOnAux sep fuel l cur = [cur.reverse ++ l] := by
  intro fuel
  induction fuel with
  | zero => intro l cur h; omega
  | succ f ih =>
      intro l cur h hc
      cases l with
      | nil => simp [splitOnAux]
      | cons c rest =>
          simp only [listContainsSub, Bool.or_eq_false_iff] at hc
          simp only [splitOnAux, hc.1, Bool.false_eq_true, if_false]
          have hlen : rest.length < f := by
            simp only [List.length_cons] at h; omega
          rw [ih rest (c :: cur) hlen hc.2]
          simp

theorem splitOnAux_cons_match (sep : List Char) (f : Nat) (l cur : List Char)
    (h : listIsPrefixOf sep l = true) (hne : l ≠ []) :
    splitOnAux sep (f + 1) l cur
      = cur.reverse :: splitOnAux sep f (l.drop sep.length) [] := by
  cases l with
  | nil => exact absurd rfl hne
  | cons c rest =>
      simp only [splitOnAux]
      rw [if_pos h]

theorem pySplitOn_pat_first (sep s : List Char) (hsep : sep ≠ [])
    (hs : listContainsSub s sep = false) :
    pySplitOn (sep ++ s) sep = [[], s] := by
  unfold pySplitOn
  rw [if_neg (by simpa [List.isEmpty_iff] using hsep)]
  have hne : sep ++ s ≠ [] := by
    cases sep with
    | nil => exact absurd rfl hsep
    | cons a as => simp
  rw [splitOnAux_cons_match sep ((sep ++ s).length) (sep ++ s) []
      (listIsPrefixOf_append_self _ _) hne]
  rw [List.drop_left]
  have hpos : 0 < sep.length := List.length_pos.2 hsep
  rw [splitOnAux_no_occurrence sep ((sep ++ s).length) s []
      (by simp only [List.length_append]; omega) hs]
  simp

/-! ## Percent-encoding lemmas -/
theorem hexVal_digitChar : ∀ d < 16, hexVal (Nat.digitChar d) = some d := by decide

theorem digitChar_lt16_ne_slash : ∀ d < 16, Nat.digitChar d ≠ '/' := by decide

theorem percent_not_unreserved : url_unreserved '%' = false := by decide

theorem listEncode_unreserved_id :
    ∀ {l : List Char}, (∀ c ∈ l, url_unreserved c = true) → listEncode l = l := by
  intro l
  induction l with
  | nil => intro _; rfl
  | cons c rest ih =>
      intro h
      have hc : url_unreserved c = true := h c (List.mem_cons_self _ _)
      simp only [listEncode, List.foldr_cons, percentEncodeChar, hc, if_true]
      have := ih fun d hd => h d (List.mem_cons_of_mem _ hd)
      simpa [listEncode] using this

theorem encode_url_unreserved_id {s : String}
    (h : ∀ c ∈ s.data, url_unreserved c = true) : encode_url s = s := by
  apply string_data_inj
  rw [encode_url_data]
  exact listEncode_unreserved_id h

theorem listEncode_no_slash {l : List Char} (h : ∀ c ∈ l, c ≠ '/') :
    ∀ c' ∈ listEncode l, c' ≠ '/' := by
  induction l with
  | nil => intro c' hc'; cases hc'
  | cons c rest ih =>
      intro c' hc'
      have hstep : listEncode (c :: rest) = percentEncodeChar c ++ listEncode rest := rfl
      rw [hstep, List.mem_append] at hc'
      rcases hc' with hc' | hc'
      · unfold percentEncodeChar at hc'
        by_cases hu : url_unreserved c = true
        · rw [if_pos hu] at hc'
          simp only [List.mem_singleton] at hc'
          subst hc'
          exact h _ (List.mem_cons_self _ _)
        · rw [if_neg hu] at hc'
          rcases List.mem_cons.1 hc' with h1 | h1
          · subst h1; decide
          · rcases List.mem_cons.1 h1 with h2 | h2
            · subst h2
              exact digitChar_lt16_ne_slash _ (Nat.mod_lt _ (by omega))
            · simp only [List.mem_singleton] at h2
              subst h2
              exact digitChar_lt16_ne_slash _ (Nat.mod_lt _ (by omega))
      · exact ih (fun d hd => h d (List.mem_cons_of_mem _ hd)) c' hc'

theorem percentDecodeAux_cons_ne {c : Char} (h : ¬ c = '%') (f : Nat) (E : List Char) :
    percentDecodeAux (f + 1) (c :: E) = c :: percentDecodeAux f E := by
  rcases E with _ | ⟨a, _ | ⟨b, rest⟩⟩ <;> simp [percentDecodeAux, h]

theorem percentDecode_listEncode :
    ∀ (l : List Char), (∀ c ∈ l, c.toNat < 256) →
      ∀ (fuel : Nat), (listEncode l).length ≤ fuel →
        percentDecodeAux fuel (listEncode l) = l := by
  intro l
  induction l with
  | nil =>
      intro _ fuel _
      cases fuel <;> rfl
  | cons c rest ih =>
      intro h fuel hf
      have hc : c.toNat < 256 := h c (List.mem_cons_self _ _)
      have hrest : ∀ d ∈ rest, d.toNat < 256 := fun d hd => h d (List.mem_cons_of_mem _ hd)
      have hstep : listEncode (c :: rest) = percentEncodeChar c ++ listEncode rest := rfl
      by_cases hu : url_unreserved c = true
      · have henc : listEncode (c :: rest) = c :: listEncode rest := by
          rw [hstep]; simp [percentEncodeChar, hu]
        rw [henc] at hf ⊢
        simp only [List.length_cons] at hf
        match fuel, hf with
        | f + 1, hf =>
          have hcp : ¬ c = '%' := by
            intro he; subst he; rw [percent_not_unreserved] at hu; cases hu
          rw [percentDecodeAux_cons_ne hcp]
          rw [ih hrest f (by omega)]
      · have henc : listEncode (c :: rest)
            = '%' :: Nat.digitChar (c.toNat / 16 % 16)
                :: Nat.digitChar (c.toNat % 16) :: listEncode rest := by
          rw [hstep]; simp [percentEncodeChar, hu]
        rw [henc] at hf ⊢
        simp only [List.length_cons] at hf
        match fuel, hf with
        | f + 1, hf =>
          have h1 : c.toNat / 16 % 16 < 16 := Nat.mod_lt _ (by omega)
          have h2 : c.toNat % 16 < 16 := Nat.mod_lt _ (by omega)
          simp only [percentDecodeAux, hexVal_digitChar _ h1, hexVal_digitChar _ h2]
          have hval : 16 * (c.toNat / 16 % 16) + c.toNat % 16 = c.toNat := by
            have hd : c.toNat / 16 < 16 := by omega
            rw [Nat.mod_eq_of_lt hd]
            omega
          rw [hval, Char.ofNat_toNat, ih hrest f (by omega)]

theorem decode_encode_url {s : String} (h : ∀ c ∈ s.data, c.toNat < 256) :
    decode_url (encode_url s) = s := by
  apply string_data_inj
  unfold decode_url
  rw [encode_url_data]
  exact percentDecode_listEncode s.data h _ (Nat.le_refl _)

/-! ## Sanitization character lemmas -/
theorem dropTrailingSpaces_subset {c : Char} {l : List Char}
    (h : c ∈ dropTrailingSpaces l) : c ∈ l := by
  unfold dropTrailingSpaces at h
  rw [List.mem_reverse] at h
  have h2 := (List.dropWhile_sublist (fun x => decide (x = ' '))).subset h
  rwa [List.mem_reverse] at h2

theorem dropTrailingSpaces_id {l : List Char} (h : ∀ c ∈ l, ¬ c = ' ') :
    dropTrailingSpaces l = l := by
  unfold dropTrailingSpaces
  have h2 : l.reverse.dropWhile (fun x => decide (x = ' ')) = l.reverse := by
    rw [List.dropWhile_eq_self_iff]
    intro hx
    simp only [decide_eq_true_eq]
    exact h _ (by rw [← List.mem_reverse]; exact List.get_mem _ _ _)
  rw [h2, List.reverse_reverse]

theorem sanitize_mem {c' : Char} {s : String}
    (h : c' ∈ (sanitize_for_filename s).data) :
    c' = '_' ∨ ∃ c ∈ s.data, illegal_filename_char c = false ∧ c' = c.toLower := by
  have h2 := dropTrailingSpaces_subset h
  rw [List.mem_map] at h2
  obtain ⟨c, hc, he⟩ := h2
  by_cases hi : illegal_filename_char c = true
  · left; rw [← he]; simp [hi]
  · right
    refine ⟨c, hc, by simpa using hi, ?_⟩
    rw [← he]
    simp [hi]

theorem sanitize_no_slash {s : String} :
    ∀ c' ∈ (sanitize_for_filename s).data, c' ≠ '/' := by
  intro c' h
  rcases sanitize_mem h with h1 | ⟨c, _, hni, he⟩
  · subst h1; decide
  · intro hs
    rw [he] at hs
    have := char_toLower_ne_slash hs
    subst this
    rw [show illegal_filename_char '/' = true from by decide] at hni
    cases hni

theorem sanitize_lt_256 {s : String} (hs : ∀ c ∈ s.data, c.toNat < 256) :
    ∀ c' ∈ (sanitize_for_filename s).data, c'.toNat < 256 := by
  intro c' h
  rcases sanitize_mem h with h1 | ⟨c, hc, _, he⟩
  · subst h1; decide
  · rw [he]
    exact char_toLower_lt_256 (hs c hc)

/-! ## Digit-character lemmas -/
theorem char_toNat_inj {c d : Char} (h : c.toNat = d.toNat) : c = d := by
  have h2 := congrArg Char.ofNat h
  rwa [Char.ofNat_toNat, Char.ofNat_toNat] at h2

theorem isDigit_mem {c : Char} (h : c.isDigit = true) :
    c ∈ ['0', '1', '2', '3', '4', '5', '6', '7', '8', '9'] := by
  have ht : 48 ≤ c.toNat ∧ c.toNat ≤ 57 := by
    simpa [Char.isDigit, Bool.and_eq_true, decide_eq_true_eq] using h
  obtain ⟨n, hn⟩ : ∃ n, c.toNat = n := ⟨_, rfl⟩
  have hc : c = Char.ofNat n := by rw [← hn, Char.ofNat_toNat]
  rw [hn] at ht
  subst hc
  obtain ⟨h1, h2⟩ := ht
  interval_cases n <;> decide

theorem digit_sanitize_props {c : Char} (h : c.isDigit = true) :
    illegal_filename_char c = false ∧ Char.toLower c = c ∧ ¬ c = ' '
      ∧ url_unreserved c = true ∧ c ≠ '/' := by
  have hm := isDigit_mem h
  fin_cases hm <;> exact ⟨by decide, by decide, by decide, by decide, by decide⟩

theorem map_id_of_fixes {l : List Char} {f : Char → Char} (h : ∀ c ∈ l, f c = c) :
    l.map f = l := by
  induction l with
  | nil => rfl
  | cons c rest ih =>
      rw [List.map_cons, h c (List.mem_cons_self _ _),
        ih fun d hd => h d (List.mem_cons_of_mem _ hd)]

theorem string_mk_data (s : String) : String.mk s.data = s := by
  cases s; rfl

theorem sanitize_natRepr (n : Nat) :
    sanitize_for_filename (natRepr n) = natRepr n := by
  apply string_data_inj
  show dropTrailingSpaces ((natRepr n).data.map _) = (natRepr n).data
  have hd : ∀ c ∈ (natRepr n).data, c.isDigit = true := natDigits_mem_isDigit n
  rw [map_id_of_fixes fun c hc => by
    obtain ⟨hill, hlow, _, _, _⟩ := digit_sanitize_props (hd c hc)
    simp [hill, hlow]]
  exact dropTrailingSpaces_id fun c hc => (digit_sanitize_props (hd c hc)).2.2.1

theorem encode_natRepr_html (n : Nat) :
    encode_url (natRepr n ++ ".html") = natRepr n ++ ".html" := by
  apply encode_url_unreserved_id
  intro c hc
  rw [String.data_append] at hc
  rcases List.mem_append.1 hc with h1 | h1
  · exact (digit_sanitize_props (natDigits_mem_isDigit n c h1)).2.2.2.1
  · fin_cases h1 <;> decide

/-- Claim C3 (amended).  The five rewrite rules run in their fixed source
order 1..5, but their selectors are *not* pairwise disjoint: rule 3
deliberately re-visits a link that rule 2 has just rewritten.  A classless
`/x/<hash>` link whose tiny URL resolves to a nonzero page id `n` is first
rewritten by rule 2 to the canonical `/pages/viewpage.action?pageId=<n>` URL
and then again by rule 3 to the local file `<n>.html` (while rules 1, 4 and
5 leave it alone and the resolution is recorded in the tiny-URL cache).
The original claim's "no element rewritten by an earlier rule is rewritten
again by a later rule" is refuted by the counterexample. -/
theorem claim_C3 (resolve : String → Option Nat) (fm : FolderManager)
    (cache : List (String × Nat)) (hash : String) (n : Nat)
    (hslash : ('/' : Char) ∉ hash.data)
    (hdisp : strContains ("/x/" ++ hash) "/display/" = false)
    (hcache : findVal cache hash = none)
    (hres : resolve hash = some n) (hn : n ≠ 0) :
    handle_html_references resolve
        [{ tag := "a", href := some ("/x/" ++ hash), src := none, cls := none, alt := none }]
        fm cache
      = { doc := [{ tag := "a", href := some (natRepr n ++ ".html"), src := none,
                    cls := none, alt := none }],
          page_fm := fm, tiny_cache := setVal cache hash n } := by
  have hchars : ∀ c ∈ hash.data, c ≠ '/' := fun c hc he => hslash (he ▸ hc)
  have hdata : ("/x/" ++ hash).data = '/' :: 'x' :: '/' :: hash.data := by
    rw [String.data_append]; rfl
  have h1 : rule1_step
      { tag := "a", href := some ("/x/" ++ hash), src := none, cls := none, alt := none } fm
      = ({ tag := "a", href := some ("/x/" ++ hash), src := none, cls := none,
           alt := none }, fm) := by
    simp [rule1_step, hdisp]
  have hlast : String.mk (lastSegment '/' ("/x/" ++ hash).data) = hash := by
    rw [hdata, show ('/' :: 'x' :: '/' :: hash.data) = ['/', 'x'] ++ '/' :: hash.data from rfl,
      lastSegment_append '/' ['/', 'x'] hash.data hchars, string_mk_data]
  have hget : get_page_id_by_tinyurl resolve cache ("/x/" ++ hash)
      = (some n, setVal cache hash n) := by
    unfold get_page_id_by_tinyurl
    rw [hlast]
    simp [hcache, hres, hn]
  have hjoin_after : afterFirst [':', '/', '/'] ("/x/" ++ hash).data = none := by
    unfold afterFirst
    rw [afterFirstAux_none_iff _ _ _ (Nat.lt_succ_self _), hdata]
    have htail : listContainsSub hash.data [':', '/', '/'] = false :=
      listContainsSub_false_of_mem (by decide) hslash
    calc listContainsSub ('/' :: 'x' :: '/' :: hash.data) [':', '/', '/']
        = listContainsSub hash.data [':', '/', '/'] := rfl
      _ = false := htail
  have h2 : rule2_step resolve
      { tag := "a", href := some ("/x/" ++ hash), src := none, cls := none, alt := none } cache
      = ({ tag := "a", href := some ("/pages/viewpage.action?pageId=" ++ natRepr n),
           src := none, cls := none, alt := none }, setVal cache hash n) := by
    have hcont : strContains ("/x/" ++ hash) "/x/" = true := by
      unfold strContains
      rw [hdata]
      exact listContainsSub_append_self ['/', 'x', '/'] hash.data
    have hjoin_after2 : afterFirst [':', '/', '/'] ('/' :: 'x' :: '/' :: hash.data) = none :=
      hdata ▸ hjoin_after
    simp only [rule2_step, hcont]
    rw [hget]
    simp only [hn, ne_eq, not_false_eq_true, if_true]
    simp [urljoin_rootpath, hjoin_after, hjoin_after2, noClass]
  have hdigits := natDigits_mem_isDigit n
  have hnds : ∀ c ∈ (natRepr n).data, c ≠ '/' :=
    fun c hc => (digit_sanitize_props (hdigits c hc)).2.2.2.2
  have hvdata : ("/pages/viewpage.action?pageId=" ++ natRepr n).data
      = viewpagePat.data ++ (natRepr n).data := by
    rw [String.data_append]; rfl
  have hsplit : pySplitOn ("/pages/viewpage.action?pageId=" ++ natRepr n).data
      viewpagePat.data = [[], (natRepr n).data] := by
    rw [hvdata]
    exact pySplitOn_pat_first _ _ (by decide)
      (listContainsSub_false_of_mem (by decide) fun h => hnds '/' h rfl)
  have h3 : rule3_step
      { tag := "a", href := some ("/pages/viewpage.action?pageId=" ++ natRepr n),
        src := none, cls := none, alt := none }
      = { tag := "a", href := some (natRepr n ++ ".html"), src := none, cls := none,
          alt := none } := by
    have hcont : strContains ("/pages/viewpage.action?pageId=" ++ natRepr n)
        viewpagePat = true := by
      unfold strContains
      rw [hvdata]
      exact listContainsSub_append_self _ _
    simp only [rule3_step]
    rw [if_pos (by simp [hcont, noClass])]
    rw [hsplit,
      show ([[], (natRepr n).data] : List (List Char)).getD 1 [] = (natRepr n).data from rfl,
      string_mk_data, sanitize_natRepr, encode_natRepr_html]
  have h4 : rule4_step
      { tag := "a", href := some (natRepr n ++ ".html"), src := none, cls := none,
        alt := none }
      = { tag := "a", href := some (natRepr n ++ ".html"), src := none, cls := none,
          alt := none } := by
    simp [rule4_step]
  have h5 : rule5_step
      { tag := "a", href := some (natRepr n ++ ".html"), src := none, cls := none,
        alt := none }
      = { tag := "a", href := some (natRepr n ++ ".html"), src := none, cls := none,
          alt := none } := by
    simp [rule5_step]
  simp only [handle_html_references, mapStateAux, h1, h2, List.map_cons, List.map_nil,
    h3, h4, h5]

/-- Claim C3 witness: `claim_C3` applied at the concrete link `/x/AB`
resolving to page id 42 — the final document points the link at `42.html`
and the resolution is cached. -/
theorem claim_C3_witness :
    handle_html_references (fun h => if h = "AB" then some 42 else none)
        [{ tag := "a", href := some ("/x/" ++ "AB"), src := none, cls := none, alt := none }]
        (FolderManager.init "sp") []
      = { doc := [{ tag := "a", href := some (natRepr 42 ++ ".html"), src := none,
                    cls := none, alt := none }],
          page_fm := FolderManager.init "sp", tiny_cache := setVal [] "AB" 42 } :=
  claim_C3 (fun h => if h = "AB" then some 42 else none) (FolderManager.init "sp") []
    "AB" 42 (by decide) (by decide) (by decide) (by decide) (by decide)

/-- Claim C3 counterexample: the rules' selectors are not pairwise disjoint.
On the classless link `/x/AB` (tiny URL resolving to page id 42), rule 1
leaves the element unchanged, rule 2 rewrites its `href`, and rule 3 then
rewrites the *same* element again — an element rewritten by an earlier rule
is re-matched and rewritten by a later one. -/
theorem claim_C3_counterexample :
    (mapStateAux rule1_step
        [{ tag := "a", href := some "/x/AB", src := none, cls := none, alt := none }]
        (FolderManager.init "sp")).1
      = [{ tag := "a", href := some "/x/AB", src := none, cls := none, alt := none }]
  ∧ (mapStateAux (rule2_step (fun h => if h = "AB" then some 42 else none))
        [{ tag := "a", href := some "/x/AB", src := none, cls := none, alt := none }] []).1
      = [{ tag := "a", href := some "/pages/viewpage.action?pageId=42", src := none,
           cls := none, alt := none }]
  ∧ List.map rule3_step
        [{ tag := "a", href := some "/pages/viewpage.action?pageId=42", src := none,
           cls := none, alt := none }]
      = [{ tag := "a", href := some "42.html", src := none, cls := none, alt := none }]
  ∧ (some "/pages/viewpage.action?pageId=42" : Option String) ≠ some "/x/AB"
  ∧ (some "42.html" : Option String) ≠ some "/pages/viewpage.action?pageId=42" := by
  refine ⟨by decide, by decide, by decide, by decide, by decide⟩

/-! ## Character lemmas for the allocated-filename round trip -/
theorem digit_lt_256 {c : Char} (h : c.isDigit = true) : c.toNat < 256 := by
  have hm := isDigit_mem h
  fin_cases hm <;> decide

theorem attachExt_html_chars {x : String} {P : Char → Prop}
    (hx : ∀ c ∈ x.data, P c) (hdot : P '.') (hh : P 'h') (ht : P 't')
    (hm : P 'm') (hl : P 'l') :
    ∀ c ∈ (attachExt x (some "html")).data, P c := by
  intro c hc
  rw [show attachExt x (some "html") = x ++ "." ++ "html" from rfl,
    String.data_append, String.data_append] at hc
  rcases List.mem_append.1 hc with h | h
  · rcases List.mem_append.1 h with h1 | h1
    · exact hx c h1
    · rw [show ("." : String).data = ['.'] from rfl, List.mem_singleton] at h1
      subst h1; exact hdot
  · rw [show ("html" : String).data = ['h', 't', 'm', 'l'] from rfl] at h
    fin_cases h <;> assumption

theorem suffix_chars {b : String} {k : Nat} {P : Char → Prop}
    (hb : ∀ c ∈ b.data, P c) (hu : P '_')
    (hdig : ∀ c : Char, c.isDigit = true → P c) :
    ∀ c ∈ (b ++ "_" ++ natRepr k).data, P c := by
  intro c hc
  rw [String.data_append, String.data_append] at hc
  rcases List.mem_append.1 hc with h | h
  · rcases List.mem_append.1 h with h1 | h1
    · exact hb c h1
    · rw [show ("_" : String).data = ['_'] from rfl, List.mem_singleton] at h1
      subst h1; exact hu
  · exact hdig c (natDigits_mem_isDigit k c h)

theorem provide_fresh_chars (fm : FolderManager) (t : String) (P : Char → Prop)
    (ht : findVal fm.title_to_filename t = none)
    (hsan : ∀ c ∈ (sanitize_for_filename t).data, P c)
    (hunder : P '_') (hdot : P '.')
    (hdig : ∀ c : Char, c.isDigit = true → P c)
    (hph : P 'h') (hpt : P 't') (hpm : P 'm') (hpl : P 'l') :
    ∀ c ∈ ((provide_unique_filename fm t false (some "html")).1).data, P c := by
  have hbase : ∀ c ∈ (computed_name_ext t false (some "html")).1.data, P c := by
    intro c hc
    have h2 : (computed_name_ext t false (some "html")).1.data
        = (sanitize_for_filename t).data.take 60 := rfl
    rw [h2] at hc
    exact hsan c (List.take_subset _ _ hc)
  cases hd : findVal fm.duplicate_filenames (computed_name_ext t false (some "html")).1 with
  | none =>
      obtain ⟨hf, _⟩ := provide_fresh_base_new fm t false (some "html") ht hd
      rw [hf]
      exact attachExt_html_chars hbase hdot hph hpt hpm hpl
  | some k =>
      obtain ⟨hf, _⟩ := provide_fresh_base_dup fm t false (some "html") k ht hd
      rw [hf]
      exact attachExt_html_chars (suffix_chars hbase hunder hdig) hdot hph hpt hpm hpl

theorem provide_fresh_no_slash (fm : FolderManager) (t : String)
    (ht : findVal fm.title_to_filename t = none) :
    ∀ c ∈ ((provide_unique_filename fm t false (some "html")).1).data, c ≠ '/' :=
  provide_fresh_chars fm t (fun c => c ≠ '/') ht sanitize_no_slash
    (by decide) (by decide) (fun c hc => (digit_sanitize_props hc).2.2.2.2)
    (by decide) (by decide) (by decide) (by decide)

theorem provide_fresh_lt_256 (fm : FolderManager) (t : String)
    (ht : findVal fm.title_to_filename t = none)
    (hti : ∀ c ∈ t.data, c.toNat < 256) :
    ∀ c ∈ ((provide_unique_filename fm t false (some "html")).1).data, c.toNat < 256 :=
  provide_fresh_chars fm t (fun c => c.toNat < 256) ht (sanitize_lt_256 hti)
    (by decide) (by decide) (fun c hc => digit_lt_256 hc)
    (by decide) (by decide) (by decide) (by decide)

theorem urlparse_path_chars_id {l : List Char} (hq : ('?' : Char) ∉ l)
    (hh : ('#' : Char) ∉ l) (hc : (':' : Char) ∉ l) :
    urlparse_path_chars l = l := by
  simp only [urlparse_path_chars]
  rw [takeUntilChar_eq_self hh, takeUntilChar_eq_self hq,
    show afterFirst [':', '/', '/'] l = none from by
      unfold afterFirst
      rw [afterFirstAux_none_iff _ _ _ (Nat.lt_succ_self _)]
      exact listContainsSub_false_of_mem (by decide) hc]

/-- Claim C6.  Round trip between rewrite rule 1 and the allocator: for a
classless `/display/<space>/<title>` link (title segment free of `/`, `?`,
`#`, `:`; `tl` names the decoded title: trailing path segment, `+` replaced
by space, percent-decoded, not yet allocated), `handle_html_references`
rewrites the link target to the percent-encoding of the filename that
`provide_unique_filename` allocates for `tl` — so the rewritten href target
denotes (percent-decodes to) exactly that filename — and a subsequent
allocation of the same title in the same scope returns that same filename. -/
theorem claim_C6 (resolve : String → Option Nat) (fm : FolderManager)
    (cache : List (String × Nat)) (sp seg tl : String)
    (hsp : ∀ c ∈ sp.data, c ≠ '?' ∧ c ≠ '#' ∧ c ≠ ':')
    (hseg : ∀ c ∈ seg.data, c ≠ '?' ∧ c ≠ '#' ∧ c ≠ ':' ∧ c ≠ '/')
    (htl : tl = decode_url (String.mk (replaceChar '+' ' ' seg.data)))
    (hfresh : findVal fm.title_to_filename tl = none)
    (hascii : ∀ c ∈ tl.data, c.toNat < 256) :
    handle_html_references resolve
        [{ tag := "a", href := some ("/display/" ++ sp ++ "/" ++ seg), src := none,
           cls := none, alt := none }] fm cache
      = { doc := [{ tag := "a",
                    href := some (encode_url
                      (provide_unique_filename fm tl false (some "html")).1),
                    src := none, cls := none, alt := none }],
          page_fm := (provide_unique_filename fm tl false (some "html")).2,
          tiny_cache := cache }
      ∧ decode_url (encode_url (provide_unique_filename fm tl false (some "html")).1)
          = (provide_unique_filename fm tl false (some "html")).1
      ∧ (provide_unique_filename (provide_unique_filename fm tl false (some "html")).2
            tl false (some "html")).1
          = (provide_unique_filename fm tl false (some "html")).1 := by
  have hdata : ("/display/" ++ sp ++ "/" ++ seg).data
      = ("/display/" ++ sp).data ++ '/' :: seg.data := by
    rw [String.data_append, String.data_append, List.append_assoc]
    rfl
  have hmem : ∀ c, c ∈ ("/display/" ++ sp ++ "/" ++ seg).data →
      c ∈ ("/display/" : String).data ∨ c ∈ sp.data ∨ c = '/' ∨ c ∈ seg.data := by
    intro c hc
    rw [hdata, String.data_append] at hc
    rcases List.mem_append.1 hc with h | h
    · rcases List.mem_append.1 h with h1 | h1
      · exact Or.inl h1
      · exact Or.inr (Or.inl h1)
    · rcases List.mem_cons.1 h with h1 | h1
      · exact Or.inr (Or.inr (Or.inl h1))
      · exact Or.inr (Or.inr (Or.inr h1))
  have hq : ('?' : Char) ∉ ("/display/" ++ sp ++ "/" ++ seg).data := by
    intro hc
    rcases hmem '?' hc with h | h | h | h
    · revert h; decide
    · exact (hsp '?' h).1 rfl
    · exact absurd h (by decide)
    · exact (hseg '?' h).1 rfl
  have hhash : ('#' : Char) ∉ ("/display/" ++ sp ++ "/" ++ seg).data := by
    intro hc
    rcases hmem '#' hc with h | h | h | h
    · revert h; decide
    · exact (hsp '#' h).2.1 rfl
    · exact absurd h (by decide)
    · exact (hseg '#' h).2.1 rfl
  have hcolon : (':' : Char) ∉ ("/display/" ++ sp ++ "/" ++ seg).data := by
    intro hc
    rcases hmem ':' hc with h | h | h | h
    · revert h; decide
    · exact (hsp ':' h).2.2 rfl
    · exact absurd h (by decide)
    · exact (hseg ':' h).2.2.1 rfl
  have hpath : urlparse_path ("/display/" ++ sp ++ "/" ++ seg)
      = "/display/" ++ sp ++ "/" ++ seg := by
    unfold urlparse_path
    rw [urlparse_path_chars_id hq hhash hcolon, string_mk_data]
  have hlastseg : lastSegment '/' ("/display/" ++ sp ++ "/" ++ seg).data = seg.data := by
    rw [hdata]
    exact lastSegment_append '/' _ seg.data fun c hc => (hseg c hc).2.2.2
  have hdisp : strContains ("/display/" ++ sp ++ "/" ++ seg) "/display/" = true := by
    unfold strContains
    rw [hdata, String.data_append, List.append_assoc]
    exact listContainsSub_append_self _ _
  have h1 : rule1_step
      { tag := "a", href := some ("/display/" ++ sp ++ "/" ++ seg), src := none,
        cls := none, alt := none } fm
      = ({ tag := "a",
           href := some (encode_url (provide_unique_filename fm tl false (some "html")).1),
           src := none, cls := none, alt := none },
         (provide_unique_filename fm tl false (some "html")).2) := by
    simp only [rule1_step]
    rw [if_pos (by simp [hdisp, noClass])]
    rw [hpath, hlastseg, ← htl]
  have hnoslash : ∀ c ∈ (encode_url
      (provide_unique_filename fm tl false (some "html")).1).data, c ≠ '/' := by
    rw [encode_url_data]
    exact listEncode_no_slash (provide_fresh_no_slash fm tl hfresh)
  have hx : strContains (encode_url
      (provide_unique_filename fm tl false (some "html")).1) "/x/" = false :=
    listContainsSub_false_of_mem (show ('/' : Char) ∈ ("/x/" : String).data by decide)
      fun h => hnoslash '/' h rfl
  have hvp : strContains (encode_url
      (provide_unique_filename fm tl false (some "html")).1) viewpagePat = false :=
    listContainsSub_false_of_mem (show ('/' : Char) ∈ viewpagePat.data by decide)
      fun h => hnoslash '/' h rfl
  refine ⟨?_, ?_, ?_⟩
  · simp only [handle_html_references, mapStateAux, h1, List.map_cons, List.map_nil]
    simp [rule2_step, hx, rule3_step, hvp, rule4_step, rule5_step]
  · exact decode_encode_url (provide_fresh_lt_256 fm tl hfresh hascii)
  · rw [provide_memo _ tl _ false (some "html") (provide_result_mem fm tl false (some "html"))]

/-- Claim C6 witness: `claim_C6` at the source's own example link
`/display/TES/pictest1` in a fresh scope — the link is rewritten to the
encoding of the filename allocated for "pictest1", that target decodes back
to the filename, and re-allocating "pictest1" returns it again. -/
theorem claim_C6_witness :
    handle_html_references (fun _ => none)
        [{ tag := "a", href := some ("/display/" ++ "TES" ++ "/" ++ "pictest1"),
           src := none, cls := none, alt := none }] (FolderManager.init "f") []
      = { doc := [{ tag := "a",
                    href := some (encode_url
                      (provide_unique_filename (FolderManager.init "f") "pictest1" false
                        (some "html")).1),
                    src := none, cls := none, alt := none }],
          page_fm := (provide_unique_filename (FolderManager.init "f") "pictest1" false
            (some "html")).2,
          tiny_cache := [] }
      ∧ decode_url (encode_url (provide_unique_filename (FolderManager.init "f")
            "pictest1" false (some "html")).1)
          = (provide_unique_filename (FolderManager.init "f") "pictest1" false
              (some "html")).1
      ∧ (provide_unique_filename
            (provide_unique_filename (FolderManager.init "f") "pictest1" false
              (some "html")).2 "pictest1" false (some "html")).1
          = (provide_unique_filename (FolderManager.init "f") "pictest1" false
              (some "html")).1 :=
  claim_C6 (fun _ => none) (FolderManager.init "f") [] "TES" "pictest1" "pictest1"
    (by decide) (by decide) (by decide) (by decide) (by decide)

/-- Claim C4 (amended).  A pre-existing space output folder does not abort
that space: `mkdir` swallows the error (a folder already in the filesystem
leaves it unchanged and raises nothing), the space's export is completely
insensitive to which folders already exist (same events, database and files),
and the run always proceeds through every configured space and emits the
final completion marker.  The original claim — that the space would be
aborted with no pages fetched or written — is refuted by the
counterexample. -/
theorem claim_C4 :
    (∀ (dirs : List String) (folder : String),
      dirs.contains folder = true → mkdir dirs folder = dirs)
  ∧ (∀ (remote : Remote) (job : SpaceJob) (force : Bool) (rs : RunState)
        (d1 d2 : List String),
      (export_space remote job force { rs with dirs := d1 }).events
          = (export_space remote job force { rs with dirs := d2 }).events
        ∧ (export_space remote job force { rs with dirs := d1 }).db
          = (export_space remote job force { rs with dirs := d2 }).db
        ∧ (export_space remote job force { rs with dirs := d1 }).files
          = (export_space remote job force { rs with dirs := d2 }).files)
  ∧ (∀ (remote : Remote) (jobs : List SpaceJob) (force : Bool) (rs : RunState),
      ∃ rest, (main_loop remote jobs force rs).events = Event.finished :: rest) := by
  refine ⟨?_, ?_, ?_⟩
  · intro dirs folder h
    unfold mkdir
    rw [if_pos h]
  · intro remote job force rs d1 d2
    cases hf : job.homepageFails <;> simp [export_space, hf]
  · intro remote jobs force
    induction jobs with
    | nil => intro rs; exact ⟨rs.events, rfl⟩
    | cons j rest ih => intro rs; exact ih _

/-- Claim C4 witness: `claim_C4` applied concretely — `mkdir` on an already
existing folder returns the filesystem unchanged, and a one-space run ends
with the completion marker. -/
theorem claim_C4_witness :
    mkdir ["export/SP"] "export/SP" = ["export/SP"]
  ∧ ∃ rest, (main_loop { tinyResolve := fun _ => none, downloadData := fun _ => some 7 }
        [] false { db := [], tiny_cache := [], files := [], dirs := ["export/SP"],
                   events := [] }).events = Event.finished :: rest :=
  ⟨claim_C4.1 ["export/SP"] "export/SP" (by decide),
   claim_C4.2.2 { tinyResolve := fun _ => none, downloadData := fun _ => some 7 } [] false
     { db := [], tiny_cache := [], files := [], dirs := ["export/SP"], events := [] }⟩

/-- Claim C4 counterexample: with the space folder `export/SP` already
existing when the space's export begins, the export is *not* aborted — the
page file of the space is still written, the index is still written, and the
run still ends with the completion marker.  The `except OSError` duplicate-
space warning in `main` is unreachable for this cause because `mkdir`
swallows the exception. -/
theorem claim_C4_counterexample :
    ("export" ++ "/" ++ "SP" : String) ∈
        (["export/SP"] : List String)
  ∧ (main_loop { tinyResolve := fun _ => none, downloadData := fun _ => some 7 }
        [{ key := "SP", homepageFails := false,
           targets := RForest.cons
             (RTree.node
               { tab := { page_id := 11, title := "Home", hash := "h", space := "SP",
                          mtime := 5 },
                 body := "<p>", htmlTree := none, attachments := [], fails := false }
               RForest.nil) RForest.nil }] false
        { db := [], tiny_cache := [], files := [], dirs := ["export/SP"],
          events := [] }).events.any
      (fun e => match e with
        | Event.fileWrite p _ => p = "export/SP/home.html"
        | _ => false) = true
  ∧ (main_loop { tinyResolve := fun _ => none, downloadData := fun _ => some 7 }
        [{ key := "SP", homepageFails := false,
           targets := RForest.cons
             (RTree.node
               { tab := { page_id := 11, title := "Home", hash := "h", space := "SP",
                          mtime := 5 },
                 body := "<p>", htmlTree := none, attachments := [], fails := false }
               RForest.nil) RForest.nil }] false
        { db := [], tiny_cache := [], files := [], dirs := ["export/SP"],
          events := [] }).events.head? = some Event.finished := by
  refine ⟨by decide, by decide, by decide⟩
